import Mathlib

/-!
Verification of the DAX cache-window map/unmap request processor and the
device-realize configuration checks of `hw/virtio/vhost-user-fs.c`
(with constants from `include/hw/virtio/vhost-user-fs.h`).

The shallow embedding below models:
  * the backend message type (`VhostUserFSBackendMsg`) with its fixed batch
    capacity of `VHOST_USER_FS_BACKEND_ENTRIES = 8` slots;
  * window memory as a byte-offset indexed map to a page state (anonymous
    mapping with a protection value, or a file-backed mapping with its fd,
    file offset and protection);
  * the two `mmap` call sites of the request processor as state
    transformers plus an emitted event trace (so "which remap calls were
    issued, in which order, with which arguments" is provable);
  * OS-level `mmap` failure via per-slot oracles (`place_ok` / `clear_ok`
    with accompanying `errno` oracles), since whether a host `mmap` call
    fails is environment behaviour outside the program text;
  * `uint64_t` arithmetic as `Nat` reduced modulo `2 ^ 64` exactly where the
    C source relies on wrap-around (the overflow check on
    `e_cache_offset + e_len`).

The request-processor model fixes `DAX_WINDOW_PROT` to `PROT_NONE`, i.e. a
build without `TARGET_PPC64 && CONFIG_LINUX`; the target-conditional value
of `DAX_WINDOW_PROT` is modelled separately (as a function of that build
flag) where a claim is about it.
-/

namespace VhostUserFS

/-- Batch capacity `VHOST_USER_FS_BACKEND_ENTRIES` from vhost-user-fs.h. -/
abbrev VHOST_USER_FS_BACKEND_ENTRIES : Nat := 8

/-- Linux errno value `EBADF`. -/
def EBADF : Int := 9

/-- Linux errno value `EINVAL`. -/
def EINVAL : Int := 22

/-- Linux errno value `ENOENT`. -/
def ENOENT : Int := 2

/-- Modulus of `uint64_t` arithmetic. -/
def U64_MOD : Nat := 2 ^ 64

/-- The all-ones `uint64_t` value, written in the C source as the bitwise
complement of `(uint64_t)0`; the whole-window sentinel length for unmap. -/
def U64_MAX : Nat := 2 ^ 64 - 1

/-- Reduction of a natural number modulo `2 ^ 64`: the value a `uint64_t`
sum actually holds. -/
def wrap64 (n : Nat) : Nat := n % U64_MOD

/-- The backend request message (`VhostUserFSBackendMsg` in
vhost-user-fs.h): four parallel arrays of 8 `uint64_t` values.  Fields are
`Nat`; theorems that depend on the values being `uint64_t` carry explicit
`< U64_MOD` bounds. -/
structure VhostUserFSBackendMsg where
  fd_offset : Fin VHOST_USER_FS_BACKEND_ENTRIES → Nat
  cache_offset : Fin VHOST_USER_FS_BACKEND_ENTRIES → Nat
  len : Fin VHOST_USER_FS_BACKEND_ENTRIES → Nat
  flags : Fin VHOST_USER_FS_BACKEND_ENTRIES → Nat

/-- Linux `PROT_NONE`. -/
def PROT_NONE : Nat := 0

/-- Linux `PROT_READ`. -/
def PROT_READ : Nat := 1

/-- Linux `PROT_WRITE`. -/
def PROT_WRITE : Nat := 2

/-- Flag bit `VHOST_USER_FS_FLAG_MAP_R` from vhost-user-fs.h. -/
def VHOST_USER_FS_FLAG_MAP_R : Nat := 1

/-- Flag bit `VHOST_USER_FS_FLAG_MAP_W` from vhost-user-fs.h. -/
def VHOST_USER_FS_FLAG_MAP_W : Nat := 2

/-- The protection the blank DAX window (and each cleared sub-range) is
mapped with: `PROT_READ` when the build has `TARGET_PPC64 && CONFIG_LINUX`
(the powerpc kernel expects the memory to be accessible during
addition/removal), `PROT_NONE` otherwise.  Lines 44-48 of
vhost-user-fs.c. -/
def DAX_WINDOW_PROT (target_ppc64_linux : Bool) : Nat :=
  if target_ppc64_linux then PROT_READ else PROT_NONE

/-- State of one byte offset of the DAX window: part of an anonymous
private mapping with protection `prot`, or part of a shared file-backed
mapping of `fd` at file offset `fd_offset` with protection `prot`. -/
inductive PageState where
  | anon (prot : Nat)
  | mapped (fd : Int) (fd_offset : Nat) (prot : Nat)
deriving DecidableEq

/-- The no-access state: anonymous mapping with `PROT_NONE`. -/
def noAccess : PageState := .anon PROT_NONE

/-- Window memory: page state per byte offset into the window. -/
abbrev Mem := Nat → PageState

/-- Effect on window memory of a successful
`mmap(cache_host + off, len, prot, MAP_SHARED | MAP_FIXED, fd, fdOff)`:
bytes `off ≤ a < off + len` become file-backed. -/
def placeBytes (m : Mem) (off len : Nat) (fd : Int) (fdOff prot : Nat) : Mem :=
  fun a => if off ≤ a ∧ a < off + len then .mapped fd (fdOff + (a - off)) prot else m a

/-- Effect on window memory of a successful
`mmap(cache_host + off, len, prot, MAP_PRIVATE | MAP_ANONYMOUS | MAP_FIXED, -1, 0)`:
bytes `off ≤ a < off + len` become anonymous with protection `prot`. -/
def clearBytes (m : Mem) (off len prot : Nat) : Mem :=
  fun a => if off ≤ a ∧ a < off + len then .anon prot else m a

/-- Protection passed to the map-path `mmap` call, derived from the entry's
flags exactly as at lines 159-160 of vhost-user-fs.c. -/
def mapProt (flags : Nat) : Nat :=
  (if flags &&& VHOST_USER_FS_FLAG_MAP_R ≠ 0 then PROT_READ else 0) |||
  (if flags &&& VHOST_USER_FS_FLAG_MAP_W ≠ 0 then PROT_WRITE else 0)

/-- The shared per-entry bounds check, exactly the condition at lines
149-150 and 201-202 of vhost-user-fs.c:
`(e_cache_offset + e_len) < e_len || (e_cache_offset + e_len) > cache_size`
computed in `uint64_t` arithmetic (the sum wraps modulo `2 ^ 64`; the
first disjunct is the source's overflow check). -/
def range_bad (cache_size e_cache_offset e_len : Nat) : Bool :=
  decide (wrap64 (e_cache_offset + e_len) < e_len) ||
  decide (wrap64 (e_cache_offset + e_len) > cache_size)

/-- One remap call issued by the request processor: `place` is the
map-path `mmap` (MAP_SHARED, file-backed, line 158), `clear` is the
unmap-path `mmap` (MAP_PRIVATE | MAP_ANONYMOUS, line 210).  `i` is the
batch slot the call was issued for. -/
inductive Event where
  | place (i : Nat) (cache_offset len prot : Nat) (fd : Int) (fd_offset : Nat)
  | clear (i : Nat) (cache_offset len : Nat)
deriving DecidableEq

/-- Batch slot an event was issued for. -/
def Event.index : Event → Nat
  | .place i _ _ _ _ _ => i
  | .clear i _ _ => i

/-- Whether an event is a map-path (file-backed) mmap call. -/
def Event.isPlace : Event → Bool
  | .place _ _ _ _ _ _ => true
  | .clear _ _ _ => false

/-- Result of a request-processor call: the returned `int`, the final
window memory, and the remap calls issued (in order). -/
structure MapResult where
  res : Int
  mem : Mem
  events : List Event

/-- The entry loop of `map_in_cache` (lines 140-168 of vhost-user-fs.c),
iterating over the remaining slot indices.  A zero-length slot is skipped
(`continue`); a failed bounds check returns `-EINVAL` at once (`break` with
`res` set); a failed `mmap` (per the `place_ok` oracle) returns the
negated errno (per the `place_errno` oracle) at once.  On `mmap` failure
the sub-range's contents are modelled as unchanged. -/
def map_loop (cache_size : Nat) (msg : VhostUserFSBackendMsg) (fd : Int)
    (place_ok : Fin 8 → Bool) (place_errno : Fin 8 → Nat) :
    List (Fin 8) → Mem → MapResult
  | [], mem => ⟨0, mem, []⟩
  | i :: rest, mem =>
    let e_len := msg.len i
    if e_len = 0 then
      map_loop cache_size msg fd place_ok place_errno rest mem
    else
      let e_fd_offset := msg.fd_offset i
      let e_cache_offset := msg.cache_offset i
      let e_flags := msg.flags i
      if range_bad cache_size e_cache_offset e_len then
        ⟨-EINVAL, mem, []⟩
      else
        let prot := mapProt e_flags
        let ev : Event := .place i.val e_cache_offset e_len prot fd e_fd_offset
        if place_ok i then
          let r := map_loop cache_size msg fd place_ok place_errno rest
            (placeBytes mem e_cache_offset e_len fd e_fd_offset prot)
          ⟨r.res, r.mem, ev :: r.events⟩
        else
          ⟨-(place_errno i : Int), mem, [ev]⟩

/-- `map_in_cache` (lines 128-171 of vhost-user-fs.c): reject a negative
fd with `-EBADF` before looking at any entry, else run the entry loop over
all 8 slots in order. -/
def map_in_cache (cache_size : Nat) (msg : VhostUserFSBackendMsg) (fd : Int)
    (place_ok : Fin 8 → Bool) (place_errno : Fin 8 → Nat) (mem : Mem) : MapResult :=
  if fd < 0 then ⟨-EBADF, mem, []⟩
  else map_loop cache_size msg fd place_ok place_errno (List.finRange 8) mem

/-- Effective length of an unmap entry after sentinel resolution (lines
196-199 of vhost-user-fs.c): the all-ones length means the whole arena and
is replaced by `cache_size` before validation. -/
def resolvedLen (cache_size : Nat) (msg : VhostUserFSBackendMsg) (i : Fin 8) : Nat :=
  if msg.len i = U64_MAX then cache_size else msg.len i

/-- The entry loop of `unmap_in_cache` (lines 189-218 of vhost-user-fs.c).
Note the loop condition is `i < VHOST_USER_FS_BACKEND_ENTRIES && msg->len[i]`,
so the loop terminates at the first zero-length slot (which makes the
body's own zero-length `continue` unreachable).  A failed bounds check
records `-EINVAL` in `res` and continues; a failed `mmap` (per the
`clear_ok` oracle) records the negated errno and continues; a successful
step leaves the previously recorded `res` in place, so the last failure
wins.  The accumulated `res` is threaded through as the second argument. -/
def unmap_loop (cache_size : Nat) (msg : VhostUserFSBackendMsg)
    (clear_ok : Fin 8 → Bool) (clear_errno : Fin 8 → Nat) :
    List (Fin 8) → Int → Mem → MapResult
  | [], res, mem => ⟨res, mem, []⟩
  | i :: rest, res, mem =>
    if msg.len i = 0 then
      ⟨res, mem, []⟩
    else
      let e_cache_offset := msg.cache_offset i
      let e_len := resolvedLen cache_size msg i
      if range_bad cache_size e_cache_offset e_len then
        unmap_loop cache_size msg clear_ok clear_errno rest (-EINVAL) mem
      else
        let ev : Event := .clear i.val e_cache_offset e_len
        let r :=
          if clear_ok i then
            unmap_loop cache_size msg clear_ok clear_errno rest res
              (clearBytes mem e_cache_offset e_len (DAX_WINDOW_PROT false))
          else
            unmap_loop cache_size msg clear_ok clear_errno rest (-(clear_errno i : Int)) mem
        ⟨r.res, r.mem, ev :: r.events⟩

/-- `unmap_in_cache` (lines 178-221 of vhost-user-fs.c): run the entry
loop over the slots in order with `res` initially `0`. -/
def unmap_in_cache (cache_size : Nat) (msg : VhostUserFSBackendMsg)
    (clear_ok : Fin 8 → Bool) (clear_errno : Fin 8 → Nat) (mem : Mem) : MapResult :=
  unmap_loop cache_size msg clear_ok clear_errno (List.finRange 8) 0 mem

/-- `get_cache` (lines 111-122 of vhost-user-fs.c).  The source guard
`if (!cache_size)` tests the address of the `cache_size` out-parameter,
not the value stored through it; at both call sites that address is the
address of a stack local and hence never NULL, so the `-ENOENT`
("DAX cache not present") branch is unreachable and the function always
returns `0` with the configured cache size stored, even when that size is
zero. -/
def get_cache (conf_cache_size : Nat) : Int × Nat :=
  (0, conf_cache_size)

/-- `vhost_user_fs_backend_map` (lines 223-243 of vhost-user-fs.c): fetch
the cache, run `map_in_cache`, and on a nonzero result run
`unmap_in_cache` over the same message to unmap them all, discarding the
rollback's own result. -/
def vhost_user_fs_backend_map (conf_cache_size : Nat) (msg : VhostUserFSBackendMsg)
    (fd : Int) (place_ok : Fin 8 → Bool) (place_errno : Fin 8 → Nat)
    (clear_ok : Fin 8 → Bool) (clear_errno : Fin 8 → Nat) (mem : Mem) : MapResult :=
  let g := get_cache conf_cache_size
  if g.1 ≠ 0 then ⟨g.1, mem, []⟩
  else
    let m := map_in_cache g.2 msg fd place_ok place_errno mem
    if m.res ≠ 0 then
      let u := unmap_in_cache g.2 msg clear_ok clear_errno m.mem
      ⟨m.res, u.mem, m.events ++ u.events⟩
    else m

/-- `vhost_user_fs_backend_unmap` (lines 245-260 of vhost-user-fs.c):
fetch the cache and run `unmap_in_cache`. -/
def vhost_user_fs_backend_unmap (conf_cache_size : Nat) (msg : VhostUserFSBackendMsg)
    (clear_ok : Fin 8 → Bool) (clear_errno : Fin 8 → Nat) (mem : Mem) : MapResult :=
  let g := get_cache conf_cache_size
  if g.1 ≠ 0 then ⟨g.1, mem, []⟩
  else unmap_in_cache g.2 msg clear_ok clear_errno mem

/-- `VIRTQUEUE_MAX_SIZE` from the virtio core headers. -/
def VIRTQUEUE_MAX_SIZE : Nat := 1024

/-- Byte size of the `tag` field of `struct virtio_fs_config`
(`sizeof_field(struct virtio_fs_config, tag)`), from the standard virtio-fs
header: 36 bytes. -/
def virtio_fs_config_tag_size : Nat := 36

/-- Modelled from the spec: qemu's `is_power_of_2` utility (used by
`vuf_device_realize` but not part of src/) — whether a size "is zero or a
power of two" reduces here to the mathematical power-of-two test, made
executable by bounding the exponent (any `k` with `n = 2 ^ k` satisfies
`k < n + 1`).  Returns false on zero, as the caller checks zero
separately. -/
def is_power_of_2 (n : Nat) : Bool :=
  (List.range (n + 1)).any (fun k => n == 2 ^ k)

/-- The device configuration fields consulted by `vuf_device_realize`
(`VHostUserFSConf` in vhost-user-fs.h).  `chardev_present` stands for
`fs->conf.chardev.chr` being non-NULL; `tag` is `none` when the tag
property is missing. -/
structure VHostUserFSConf where
  chardev_present : Bool
  tag : Option String
  num_request_queues : Nat
  queue_size : Nat
  cache_size : Nat

/-- The distinct `error_setg` failure exits of `vuf_device_realize`, plus
the two abstracted init failures after window creation. -/
inductive RealizeError where
  | missing_chardev
  | missing_tag
  | empty_tag
  | tag_too_long
  | zero_request_queues
  | queue_size_not_pow2
  | queue_size_too_big
  | bad_cache_size
  | mmap_failed
  | vhost_user_init_failed
  | vhost_dev_init_failed
deriving DecidableEq

/-- Result of `vuf_device_realize`: the error it aborted with (if any) and
the blank-cache reservations performed, each recorded as
(size, protection) of the successful anonymous `mmap` at lines 465-466. -/
structure RealizeResult where
  err : Option RealizeError
  create_events : List (Nat × Nat)
deriving DecidableEq

/-- The realize-time window of host address space: its byte size and the
page state of every window offset. -/
structure CacheWindow where
  size : Nat
  mem : Mem

/-- The blank DAX window produced by the anonymous private `mmap` of
`vuf_device_realize` (lines 463-470 of vhost-user-fs.c): `size` bytes,
every offset an anonymous page with protection `DAX_WINDOW_PROT`. -/
def vuf_create_cache (size : Nat) (target_ppc64_linux : Bool) : CacheWindow :=
  ⟨size, fun _ => .anon (DAX_WINDOW_PROT target_ppc64_linux)⟩

/-- The property-validation and cache-creation sequence of
`vuf_device_realize` (lines 412-513 of vhost-user-fs.c), in source order.
`page_size` stands for `qemu_real_host_page_size()` (not part of src/);
`mmap_ok`, `vhost_user_init_ok` and `vhost_dev_init_ok` are oracles for
the three fallible external calls.  `vhost_user_init` and `vhost_dev_init`
failures come after the window reservation, so their `create_events`
record the already-performed reservation. -/
def vuf_device_realize (conf : VHostUserFSConf) (page_size : Nat)
    (target_ppc64_linux : Bool)
    (mmap_ok vhost_user_init_ok vhost_dev_init_ok : Bool) : RealizeResult :=
  if conf.chardev_present = false then ⟨some .missing_chardev, []⟩
  else
    match conf.tag with
    | none => ⟨some .missing_tag, []⟩
    | some tag =>
      if tag.length = 0 then ⟨some .empty_tag, []⟩
      else if tag.length > virtio_fs_config_tag_size then ⟨some .tag_too_long, []⟩
      else if conf.num_request_queues = 0 then ⟨some .zero_request_queues, []⟩
      else if is_power_of_2 conf.queue_size = false then ⟨some .queue_size_not_pow2, []⟩
      else if conf.queue_size > VIRTQUEUE_MAX_SIZE then ⟨some .queue_size_too_big, []⟩
      else if conf.cache_size ≠ 0 ∧
          (is_power_of_2 conf.cache_size = false ∨ conf.cache_size < page_size) then
        ⟨some .bad_cache_size, []⟩
      else if conf.cache_size ≠ 0 ∧ mmap_ok = false then ⟨some .mmap_failed, []⟩
      else
        let created : List (Nat × Nat) :=
          if conf.cache_size ≠ 0 then
            [(conf.cache_size, DAX_WINDOW_PROT target_ppc64_linux)]
          else []
        if vhost_user_init_ok = false then ⟨some .vhost_user_init_failed, created⟩
        else if vhost_dev_init_ok = false then ⟨some .vhost_dev_init_failed, created⟩
        else ⟨none, created⟩

/-- Whether map entry `i` fails when the loop reaches it: it is in use
(nonzero length) and either its bounds check fails or its `mmap` fails. -/
def map_entry_fails (cache_size : Nat) (msg : VhostUserFSBackendMsg)
    (place_ok : Fin 8 → Bool) (i : Fin 8) : Bool :=
  (msg.len i != 0) &&
    (range_bad cache_size (msg.cache_offset i) (msg.len i) || !(place_ok i))

/-- The error a failing map entry produces: `-EINVAL` on a failed bounds
check, else the negated `mmap` errno. -/
def map_entry_err (cache_size : Nat) (msg : VhostUserFSBackendMsg)
    (place_errno : Fin 8 → Nat) (i : Fin 8) : Int :=
  if range_bad cache_size (msg.cache_offset i) (msg.len i) then -EINVAL
  else -(place_errno i : Int)

/-- Whether unmap entry `i` fails when the loop reaches it (the loop only
reaches nonzero-length entries): its bounds check (on the sentinel-resolved
length) fails or its `mmap` fails. -/
def unmap_entry_fails (cache_size : Nat) (msg : VhostUserFSBackendMsg)
    (clear_ok : Fin 8 → Bool) (i : Fin 8) : Bool :=
  range_bad cache_size (msg.cache_offset i) (resolvedLen cache_size msg i) || !(clear_ok i)

/-- The error a failing unmap entry records: `-EINVAL` on a failed bounds
check, else the negated `mmap` errno. -/
def unmap_entry_err (cache_size : Nat) (msg : VhostUserFSBackendMsg)
    (clear_errno : Fin 8 → Nat) (i : Fin 8) : Int :=
  if range_bad cache_size (msg.cache_offset i) (resolvedLen cache_size msg i) then -EINVAL
  else -(clear_errno i : Int)

/-- Memory after the map loop successfully places one slot: unchanged for
an unused slot, the slot's range file-mapped otherwise. -/
def place_entry (msg : VhostUserFSBackendMsg) (fd : Int) (m : Mem) (j : Fin 8) : Mem :=
  if msg.len j = 0 then m
  else placeBytes m (msg.cache_offset j) (msg.len j) fd (msg.fd_offset j) (mapProt (msg.flags j))

/-- Memory after the map loop has run a list of slots that all succeed. -/
def place_front (msg : VhostUserFSBackendMsg) (fd : Int) (l : List (Fin 8)) (m : Mem) : Mem :=
  l.foldl (place_entry msg fd) m

/-- The `place` calls the map loop issues for a list of slots that all
succeed: one per in-use slot, in slot order. -/
def placeEvs (msg : VhostUserFSBackendMsg) (fd : Int) (l : List (Fin 8)) : List Event :=
  (l.filter (fun j => msg.len j != 0)).map
    (fun j => Event.place j.val (msg.cache_offset j) (msg.len j)
      (mapProt (msg.flags j)) fd (msg.fd_offset j))

/-- An all-zeroes backend message: every slot unused. -/
def msgZero : VhostUserFSBackendMsg := ⟨fun _ => 0, fun _ => 0, fun _ => 0, fun _ => 0⟩

/-- An all-no-access window memory. -/
def memNoAccess : Mem := fun _ => noAccess

/-- A message whose only in-use slot is slot 0: offset 0, length 4096. -/
def msgC6 : VhostUserFSBackendMsg :=
  ⟨fun _ => 0, fun _ => 0, fun i => if i.val = 0 then 4096 else 0, fun _ => 0⟩

/-- A window memory with prior file-backed mappings everywhere. -/
def memC6 : Mem := fun _ => .mapped 7 0 3

/-- A message for the C8 witness: slot 0 valid (offset 0, length 4096,
readable), slot 1 invalid (offset 0, length 4097). -/
def msgC8 : VhostUserFSBackendMsg :=
  ⟨fun _ => 0, fun _ => 0,
   fun i => if i.val = 0 then 4096 else if i.val = 1 then 4097 else 0,
   fun _ => 1⟩

/-- A message for the C7 witness: slot 0 valid (offset 0, length 4096),
slot 1 attempted but invalid (offset 0, length 4097 against size 4096). -/
def msgC7 : VhostUserFSBackendMsg :=
  ⟨fun _ => 0, fun _ => 0,
   fun i => if i.val = 0 then 4096 else if i.val = 1 then 4097 else 0,
   fun _ => 0⟩

/-- A message with slot 0 unused and slot 1 in use and valid
(offset 0, length 4096). -/
def msgC2 : VhostUserFSBackendMsg :=
  ⟨fun _ => 0, fun _ => 0, fun i => if i.val = 1 then 4096 else 0, fun _ => 0⟩

/-- A message for the C2 witness: slot 0 attempted but invalid
(offset 0, length 4097 against size 4096), slot 1 valid (offset 0,
length 4096). -/
def msgC2w : VhostUserFSBackendMsg :=
  ⟨fun _ => 0, fun _ => 0,
   fun i => if i.val = 0 then 4097 else if i.val = 1 then 4096 else 0,
   fun _ => 0⟩

/-- A message whose slot 0 is a whole-window sentinel unmap at a nonzero
offset (4096). -/
def msgC4 : VhostUserFSBackendMsg :=
  ⟨fun _ => 0, fun i => if i.val = 0 then 4096 else 0,
   fun i => if i.val = 0 then U64_MAX else 0, fun _ => 0⟩

/-- A message whose slot 0 is a whole-window sentinel unmap at offset 0. -/
def msgC4w : VhostUserFSBackendMsg :=
  ⟨fun _ => 0, fun _ => 0, fun i => if i.val = 0 then U64_MAX else 0, fun _ => 0⟩

/-- A map batch with a zero-length hole: slot 0 valid (offset 0, length
4096), slot 1 unused, slot 2 valid (offset 4096, length 4096), slot 3
invalid (offset 8192, length 1 against size 8192). -/
def msgC1 : VhostUserFSBackendMsg :=
  ⟨fun _ => 0,
   fun i => if i.val = 2 then 4096 else if i.val = 3 then 8192 else 0,
   fun i => if i.val = 0 then 4096 else if i.val = 2 then 4096 else
     if i.val = 3 then 1 else 0,
   fun _ => 1⟩

/-- A packed map batch with a failing slot: slot 0 valid (offset 0,
length 4096), slot 1 invalid (offset 8192, length 1 against size 8192),
all later slots unused. -/
def msgC1w : VhostUserFSBackendMsg :=
  ⟨fun _ => 0,
   fun i => if i.val = 1 then 8192 else 0,
   fun i => if i.val = 0 then 4096 else if i.val = 1 then 1 else 0,
   fun _ => 1⟩

/-- A message whose slot 0 is a whole-window sentinel unmap at offset 0
(and all other slots unused). -/
def msgC5 : VhostUserFSBackendMsg :=
  ⟨fun _ => 0, fun _ => 0, fun i => if i.val = 0 then U64_MAX else 0, fun _ => 0⟩

section Lemmas

/-- The shared bounds check rejects exactly on 64-bit overflow of
`cache_offset + len` or on the true sum exceeding the window size. -/
lemma range_bad_iff (cache_size o l : Nat) (ho : o < U64_MOD) :
    range_bad cache_size o l = true ↔ (U64_MOD ≤ o + l ∨ cache_size < o + l) := by
  have hM : U64_MOD = 18446744073709551616 := by norm_num [U64_MOD]
  simp only [range_bad, wrap64, Bool.or_eq_true, decide_eq_true_eq]
  rw [hM] at ho ⊢
  omega

/-- A map-valid (in-use, bounds-check-passing) entry keeps the same
length under unmap sentinel resolution, and passes the unmap bounds check
as well: the all-ones length can only pass the map check when the offset
is zero and the window size is itself the all-ones value. -/
lemma map_valid_resolved (cache_size o l : Nat) (ho : o < U64_MOD)
    (hcs : cache_size < U64_MOD)
    (hok : range_bad cache_size o l = false) :
    (if l = U64_MAX then cache_size else l) = l ∧
      range_bad cache_size o (if l = U64_MAX then cache_size else l) = false := by
  have hM : U64_MOD = 18446744073709551616 := by norm_num [U64_MOD]
  have hX : U64_MAX = 18446744073709551615 := by norm_num [U64_MAX]
  have h1 : ¬(U64_MOD ≤ o + l ∨ cache_size < o + l) := by
    rw [← range_bad_iff cache_size o l ho, hok]; simp
  have hl : (if l = U64_MAX then cache_size else l) = l := by
    by_cases h : l = U64_MAX
    · subst h; rw [if_pos rfl]; omega
    · rw [if_neg h]
  exact ⟨hl, by rw [hl]; exact hok⟩

set_option maxRecDepth 10000

/-- Membership in the longest satisfying front segment of the slot index
list: slot `i` is in it exactly when every slot up to and including `i`
satisfies the predicate. -/
lemma mem_takeWhile_finRange : ∀ (p : Fin 8 → Bool) (i : Fin 8),
    (i ∈ (List.finRange 8).takeWhile p) ↔ (∀ j, j ≤ i → p j = true) := by decide

/-- The last element of a filtered slot index list is the maximal slot
satisfying the predicate. -/
lemma filter_finRange_getLast : ∀ (q : Fin 8 → Bool) (i : Fin 8),
    q i = true → (∀ j, q j = true → j ≤ i) →
    ((List.finRange 8).filter q).getLast? = some i := by decide

/-- The longest satisfying front segment of the slot index list, as a
filter by the downward-closed closure of the predicate. -/
lemma takeWhile_finRange_eq_filter : ∀ (p : Fin 8 → Bool),
    (List.finRange 8).takeWhile p =
      (List.finRange 8).filter (fun j => decide (∀ k, k ≤ j → p k = true)) := by decide

/-- The slot index list split at an arbitrary slot `i`. -/
lemma finRange_split : ∀ (i : Fin 8),
    List.finRange 8 =
      (List.finRange 8).filter (fun j => decide (j < i)) ++
        i :: (List.finRange 8).filter (fun j => decide (i < j)) := by decide

/-- An empty filtered slot index list means no slot satisfies the
predicate. -/
lemma filter_finRange_eq_nil : ∀ (q : Fin 8 → Bool),
    ((List.finRange 8).filter q = []) ↔ (∀ j, q j = false) := by decide

/-- A nonempty set of slots has a maximal element. -/
lemma exists_max_slot : ∀ (q : Fin 8 → Bool), (∃ j, q j = true) →
    ∃ i, q i = true ∧ ∀ j, q j = true → j ≤ i := by decide

/-- A nonempty set of slots has a minimal element. -/
lemma exists_min_slot : ∀ (q : Fin 8 → Bool), (∃ j, q j = true) →
    ∃ i, q i = true ∧ ∀ j, j < i → q j = false := by decide

/-- Against a zero-size window, every nonzero length fails the bounds
check. -/
lemma range_bad_zero_size (o l : Nat) (hl : l ≠ 0) : range_bad 0 o l = true := by
  simp only [range_bad, Bool.or_eq_true, decide_eq_true_eq, wrap64]
  rcases Nat.eq_zero_or_pos ((o + l) % U64_MOD) with h | h
  · left; omega
  · right; omega

/-- The unmap loop's returned `res`: a fold of "last failure wins" over the
front segment of in-use slots (the loop stops at the first zero-length
slot). -/
lemma unmap_loop_res_foldl (cache_size : Nat) (msg : VhostUserFSBackendMsg)
    (clear_ok : Fin 8 → Bool) (clear_errno : Fin 8 → Nat) :
    ∀ (l : List (Fin 8)) (res : Int) (mem : Mem),
      (unmap_loop cache_size msg clear_ok clear_errno l res mem).res =
        (l.takeWhile (fun j => msg.len j != 0)).foldl
          (fun r i => if unmap_entry_fails cache_size msg clear_ok i
            then unmap_entry_err cache_size msg clear_errno i else r) res := by
  intro l
  induction l with
  | nil => intro res mem; rfl
  | cons i rest ih =>
    intro res mem
    by_cases h0 : msg.len i = 0
    · simp [unmap_loop, h0]
    · by_cases hbad : range_bad cache_size (msg.cache_offset i) (resolvedLen cache_size msg i) = true
      · simp [unmap_loop, h0, hbad, unmap_entry_fails, unmap_entry_err, ih]
      · by_cases hok : clear_ok i = true
        · simp [unmap_loop, h0, hbad, hok, unmap_entry_fails, unmap_entry_err, ih]
        · simp [unmap_loop, h0, hbad, hok, unmap_entry_fails, unmap_entry_err, ih]

/-- A "last failure wins" fold equals the error of the last failing
element, or the initial value when none fails. -/
lemma foldl_last_fail (failsb : Fin 8 → Bool) (err : Fin 8 → Int) :
    ∀ (L : List (Fin 8)) (r : Int),
      L.foldl (fun acc i => if failsb i then err i else acc) r =
        (((L.filter failsb).getLast?).map err).getD r := by
  intro L
  induction L with
  | nil => intro r; rfl
  | cons i rest ih =>
    intro r
    by_cases h : failsb i = true
    · rw [List.foldl_cons, if_pos h, List.filter_cons_of_pos h, ih]
      cases hrest : rest.filter failsb with
      | nil => simp [hrest]
      | cons b l₂ =>
        rw [List.getLast?_cons_cons]
        have h2 : ∃ x, (b :: l₂).getLast? = some x := by
          have := (List.getLast?_isSome (l := b :: l₂)).mpr (by simp)
          exact Option.isSome_iff_exists.mp this
        obtain ⟨x, hx⟩ := h2
        simp [hx]
    · rw [List.foldl_cons, if_neg h, List.filter_cons_of_neg (by simpa using h), ih]

/-- `clearBytes` leaves bytes outside the cleared range unchanged. -/
lemma clearBytes_eq_of_out (m : Mem) (off len prot a : Nat)
    (h : ¬(off ≤ a ∧ a < off + len)) : clearBytes m off len prot a = m a := by
  simp only [clearBytes, if_neg h]

/-- `placeBytes` leaves bytes outside the placed range unchanged. -/
lemma placeBytes_eq_of_out (m : Mem) (off len : Nat) (fd : Int) (fdOff prot a : Nat)
    (h : ¬(off ≤ a ∧ a < off + len)) : placeBytes m off len fd fdOff prot a = m a := by
  simp only [placeBytes, if_neg h]

/-- Every remap call issued by the unmap loop is a `clear` for an in-use
slot in the loop's front segment whose sentinel-resolved range passed the
bounds check, with exactly that slot's offset and resolved length. -/
lemma unmap_loop_events_sound (cache_size : Nat) (msg : VhostUserFSBackendMsg)
    (clear_ok : Fin 8 → Bool) (clear_errno : Fin 8 → Nat) :
    ∀ (l : List (Fin 8)) (res : Int) (mem : Mem),
      ∀ ev ∈ (unmap_loop cache_size msg clear_ok clear_errno l res mem).events,
        ∃ i ∈ l.takeWhile (fun j => msg.len j != 0),
          ev = Event.clear i.val (msg.cache_offset i) (resolvedLen cache_size msg i) ∧
          range_bad cache_size (msg.cache_offset i) (resolvedLen cache_size msg i) = false := by
  intro l
  induction l with
  | nil => intro res mem ev hev; simp [unmap_loop] at hev
  | cons i rest ih =>
    intro res mem ev hev
    by_cases h0 : msg.len i = 0
    · simp [unmap_loop, h0] at hev
    · by_cases hbad : range_bad cache_size (msg.cache_offset i) (resolvedLen cache_size msg i) = true
      · simp only [unmap_loop, if_neg h0, if_pos hbad] at hev
        obtain ⟨j, hj, hj2⟩ := ih (-EINVAL) mem ev hev
        exact ⟨j, by simp [h0, List.takeWhile_cons, List.mem_cons]; right; simpa using hj, hj2⟩
      · simp only [unmap_loop, if_neg h0, if_neg hbad, List.mem_cons] at hev
        rcases hev with hev | hev
        · exact ⟨i, by simp [List.takeWhile_cons, h0],
            hev, by simpa using hbad⟩
        · by_cases hok : clear_ok i = true
          · simp only [if_pos hok] at hev
            obtain ⟨j, hj, hj2⟩ := ih res _ ev hev
            exact ⟨j, by simp [h0, List.takeWhile_cons, List.mem_cons]; right; simpa using hj, hj2⟩
          · simp only [if_neg hok] at hev
            obtain ⟨j, hj, hj2⟩ := ih _ mem ev hev
            exact ⟨j, by simp [h0, List.takeWhile_cons, List.mem_cons]; right; simpa using hj, hj2⟩

/-- Every in-use slot in the loop's front segment whose resolved range
passes the bounds check gets its `clear` call, no matter how other slots
fare. -/
lemma unmap_loop_clear_event (cache_size : Nat) (msg : VhostUserFSBackendMsg)
    (clear_ok : Fin 8 → Bool) (clear_errno : Fin 8 → Nat) :
    ∀ (l : List (Fin 8)) (res : Int) (mem : Mem) (i : Fin 8),
      i ∈ l.takeWhile (fun j => msg.len j != 0) →
      range_bad cache_size (msg.cache_offset i) (resolvedLen cache_size msg i) = false →
      Event.clear i.val (msg.cache_offset i) (resolvedLen cache_size msg i) ∈
        (unmap_loop cache_size msg clear_ok clear_errno l res mem).events := by
  intro l
  induction l with
  | nil => intro res mem i hi; simp at hi
  | cons j rest ih =>
    intro res mem i hi hok
    by_cases h0 : msg.len j = 0
    · simp [List.takeWhile_cons, h0] at hi
    · rw [List.takeWhile_cons, if_pos (by simpa using h0)] at hi
      rcases List.mem_cons.mp hi with hij | hi2
      · subst hij
        simp only [unmap_loop, if_neg h0, if_neg (by simp [hok] : ¬range_bad cache_size
          (msg.cache_offset i) (resolvedLen cache_size msg i) = true)]
        by_cases hco : clear_ok i = true
        · simp [hco]
        · simp [hco]
      · simp only [unmap_loop, if_neg h0]
        by_cases hbad : range_bad cache_size (msg.cache_offset j) (resolvedLen cache_size msg j) = true
        · rw [if_pos hbad]
          exact ih (-EINVAL) mem i hi2 hok
        · rw [if_neg hbad]
          by_cases hco : clear_ok j = true
          · simp only [if_pos hco, List.mem_cons]
            exact Or.inr (ih res _ i hi2 hok)
          · simp only [if_neg hco, List.mem_cons]
            exact Or.inr (ih _ mem i hi2 hok)

/-- The unmap loop either leaves a byte unchanged or sets it to the
no-access state (its only write is the anonymous `DAX_WINDOW_PROT`
remap). -/
lemma unmap_loop_mem_cases (cache_size : Nat) (msg : VhostUserFSBackendMsg)
    (clear_ok : Fin 8 → Bool) (clear_errno : Fin 8 → Nat) :
    ∀ (l : List (Fin 8)) (res : Int) (mem : Mem) (a : Nat),
      (unmap_loop cache_size msg clear_ok clear_errno l res mem).mem a = mem a ∨
      (unmap_loop cache_size msg clear_ok clear_errno l res mem).mem a = noAccess := by
  intro l
  induction l with
  | nil => intro res mem a; left; rfl
  | cons i rest ih =>
    intro res mem a
    by_cases h0 : msg.len i = 0
    · simp [unmap_loop, h0]
    · simp only [unmap_loop, if_neg h0]
      by_cases hbad : range_bad cache_size (msg.cache_offset i) (resolvedLen cache_size msg i) = true
      · rw [if_pos hbad]; exact ih (-EINVAL) mem a
      · rw [if_neg hbad]
        by_cases hco : clear_ok i = true
        · simp only [if_pos hco]
          rcases ih res (clearBytes mem (msg.cache_offset i) (resolvedLen cache_size msg i)
            (DAX_WINDOW_PROT false)) a with h | h
          · rw [h]
            by_cases hin : msg.cache_offset i ≤ a ∧ a < msg.cache_offset i + resolvedLen cache_size msg i
            · right; simp [clearBytes, if_pos hin, noAccess, DAX_WINDOW_PROT, PROT_NONE]
            · left; exact clearBytes_eq_of_out _ _ _ _ _ hin
          · right; exact h
        · simp only [if_neg hco]
          exact ih _ mem a

/-- Once the unmap loop reaches an in-use, bounds-check-passing slot whose
`mmap` succeeds, every byte of that slot's resolved range is no-access in
the loop's final memory. -/
lemma unmap_loop_clear_mem (cache_size : Nat) (msg : VhostUserFSBackendMsg)
    (clear_ok : Fin 8 → Bool) (clear_errno : Fin 8 → Nat) :
    ∀ (l : List (Fin 8)) (res : Int) (mem : Mem) (i : Fin 8),
      i ∈ l.takeWhile (fun j => msg.len j != 0) →
      range_bad cache_size (msg.cache_offset i) (resolvedLen cache_size msg i) = false →
      clear_ok i = true →
      ∀ a, msg.cache_offset i ≤ a → a < msg.cache_offset i + resolvedLen cache_size msg i →
      (unmap_loop cache_size msg clear_ok clear_errno l res mem).mem a = noAccess := by
  intro l
  induction l with
  | nil => intro res mem i hi; simp at hi
  | cons j rest ih =>
    intro res mem i hi hok hco a ha1 ha2
    by_cases h0 : msg.len j = 0
    · simp [List.takeWhile_cons, h0] at hi
    · rw [List.takeWhile_cons, if_pos (by simpa using h0)] at hi
      rcases List.mem_cons.mp hi with hij | hi2
      · subst hij
        simp only [unmap_loop, if_neg h0,
          if_neg (by simp [hok] : ¬range_bad cache_size (msg.cache_offset i)
            (resolvedLen cache_size msg i) = true), if_pos hco]
        rcases unmap_loop_mem_cases cache_size msg clear_ok clear_errno rest res
          (clearBytes mem (msg.cache_offset i) (resolvedLen cache_size msg i)
            (DAX_WINDOW_PROT false)) a with h | h
        · rw [h]
          simp [clearBytes, if_pos (And.intro ha1 ha2), noAccess, DAX_WINDOW_PROT, PROT_NONE]
        · exact h
      · simp only [unmap_loop, if_neg h0]
        by_cases hbad : range_bad cache_size (msg.cache_offset j) (resolvedLen cache_size msg j) = true
        · rw [if_pos hbad]; exact ih (-EINVAL) mem i hi2 hok hco a ha1 ha2
        · rw [if_neg hbad]
          by_cases hcoj : clear_ok j = true
          · simp only [if_pos hcoj]
            exact ih res _ i hi2 hok hco a ha1 ha2
          · simp only [if_neg hcoj]
            exact ih _ mem i hi2 hok hco a ha1 ha2

/-- Every remap call issued by the map loop is a `place` for an in-use
slot of the loop's index list whose range passed the bounds check, with
exactly that slot's arguments. -/
lemma map_loop_events_sound (cache_size : Nat) (msg : VhostUserFSBackendMsg) (fd : Int)
    (place_ok : Fin 8 → Bool) (place_errno : Fin 8 → Nat) :
    ∀ (l : List (Fin 8)) (mem : Mem),
      ∀ ev ∈ (map_loop cache_size msg fd place_ok place_errno l mem).events,
        ∃ i ∈ l,
          ev = Event.place i.val (msg.cache_offset i) (msg.len i)
            (mapProt (msg.flags i)) fd (msg.fd_offset i) ∧
          msg.len i ≠ 0 ∧ range_bad cache_size (msg.cache_offset i) (msg.len i) = false := by
  intro l
  induction l with
  | nil => intro mem ev hev; simp [map_loop] at hev
  | cons i rest ih =>
    intro mem ev hev
    by_cases h0 : msg.len i = 0
    · simp only [map_loop, if_pos h0] at hev
      obtain ⟨j, hj, hj2⟩ := ih mem ev hev
      exact ⟨j, List.mem_cons_of_mem _ hj, hj2⟩
    · simp only [map_loop, if_neg h0] at hev
      by_cases hbad : range_bad cache_size (msg.cache_offset i) (msg.len i) = true
      · rw [if_pos hbad] at hev; simp at hev
      · rw [if_neg hbad] at hev
        by_cases hpo : place_ok i = true
        · simp only [if_pos hpo, List.mem_cons] at hev
          rcases hev with hev | hev
          · exact ⟨i, List.mem_cons_self _ _, hev, h0, by simpa using hbad⟩
          · obtain ⟨j, hj, hj2⟩ := ih _ ev hev
            exact ⟨j, List.mem_cons_of_mem _ hj, hj2⟩
        · simp only [if_neg hpo, List.mem_singleton] at hev
          exact ⟨i, List.mem_cons_self _ _, hev, h0, by simpa using hbad⟩

/-- Every byte the map loop changes lies inside the range of some in-use,
bounds-check-passing slot of its index list. -/
lemma map_loop_mem_sound (cache_size : Nat) (msg : VhostUserFSBackendMsg) (fd : Int)
    (place_ok : Fin 8 → Bool) (place_errno : Fin 8 → Nat) :
    ∀ (l : List (Fin 8)) (mem : Mem) (a : Nat),
      (map_loop cache_size msg fd place_ok place_errno l mem).mem a ≠ mem a →
      ∃ i ∈ l, msg.len i ≠ 0 ∧ range_bad cache_size (msg.cache_offset i) (msg.len i) = false ∧
        msg.cache_offset i ≤ a ∧ a < msg.cache_offset i + msg.len i := by
  intro l
  induction l with
  | nil => intro mem a h; exact absurd rfl h
  | cons i rest ih =>
    intro mem a h
    by_cases h0 : msg.len i = 0
    · simp only [map_loop, if_pos h0] at h
      obtain ⟨j, hj, hj2⟩ := ih mem a h
      exact ⟨j, List.mem_cons_of_mem _ hj, hj2⟩
    · simp only [map_loop, if_neg h0] at h
      by_cases hbad : range_bad cache_size (msg.cache_offset i) (msg.len i) = true
      · rw [if_pos hbad] at h; exact absurd rfl h
      · rw [if_neg hbad] at h
        by_cases hpo : place_ok i = true
        · simp only [if_pos hpo] at h
          by_cases hin : msg.cache_offset i ≤ a ∧ a < msg.cache_offset i + msg.len i
          · exact ⟨i, List.mem_cons_self _ _, h0, by simpa using hbad, hin.1, hin.2⟩
          · by_cases h2 : (map_loop cache_size msg fd place_ok place_errno rest
                (placeBytes mem (msg.cache_offset i) (msg.len i) fd (msg.fd_offset i)
                  (mapProt (msg.flags i)))).mem a =
                placeBytes mem (msg.cache_offset i) (msg.len i) fd (msg.fd_offset i)
                  (mapProt (msg.flags i)) a
            · rw [h2, placeBytes_eq_of_out _ _ _ _ _ _ _ hin] at h
              exact absurd rfl h
            · obtain ⟨j, hj, hj2⟩ := ih _ a h2
              exact ⟨j, List.mem_cons_of_mem _ hj, hj2⟩
        · simp only [if_neg hpo] at h
          exact absurd rfl h

/-- Running the map loop over a front segment of slots none of which
fails, followed by the rest: the front segment's slots are all placed and
the loop continues on the rest. -/
lemma map_loop_clean_front (cache_size : Nat) (msg : VhostUserFSBackendMsg) (fd : Int)
    (place_ok : Fin 8 → Bool) (place_errno : Fin 8 → Nat) :
    ∀ (l₁ : List (Fin 8)), (∀ j ∈ l₁, map_entry_fails cache_size msg place_ok j = false) →
    ∀ (l₂ : List (Fin 8)) (mem : Mem),
      (map_loop cache_size msg fd place_ok place_errno (l₁ ++ l₂) mem).res =
        (map_loop cache_size msg fd place_ok place_errno l₂
          (place_front msg fd l₁ mem)).res ∧
      (map_loop cache_size msg fd place_ok place_errno (l₁ ++ l₂) mem).mem =
        (map_loop cache_size msg fd place_ok place_errno l₂
          (place_front msg fd l₁ mem)).mem ∧
      (map_loop cache_size msg fd place_ok place_errno (l₁ ++ l₂) mem).events =
        placeEvs msg fd l₁ ++
          (map_loop cache_size msg fd place_ok place_errno l₂
            (place_front msg fd l₁ mem)).events := by
  intro l₁
  induction l₁ with
  | nil => intro _ l₂ mem; exact ⟨rfl, rfl, rfl⟩
  | cons j rest ih =>
    intro hclean l₂ mem
    have hj := hclean j (List.mem_cons_self _ _)
    have hrest : ∀ k ∈ rest, map_entry_fails cache_size msg place_ok k = false :=
      fun k hk => hclean k (List.mem_cons_of_mem _ hk)
    by_cases h0 : msg.len j = 0
    · have e1 : placeEvs msg fd (j :: rest) = placeEvs msg fd rest := by
        simp [placeEvs, List.filter_cons, h0]
      have e2 : place_front msg fd (j :: rest) mem = place_front msg fd rest mem := by
        simp [place_front, place_entry, h0]
      simp only [List.cons_append, map_loop, if_pos h0, e1, e2]
      exact ih hrest l₂ mem
    · have hnb : ¬range_bad cache_size (msg.cache_offset j) (msg.len j) = true := by
        simp only [map_entry_fails, Bool.and_eq_false_iff, bne_eq_false_iff_eq,
          Bool.or_eq_false_iff] at hj
        rcases hj with hj | hj
        · exact absurd hj h0
        · simp [hj.1]
      have hpo : place_ok j = true := by
        simp only [map_entry_fails, Bool.and_eq_false_iff, bne_eq_false_iff_eq,
          Bool.or_eq_false_iff] at hj
        rcases hj with hj | hj
        · exact absurd hj h0
        · simpa using hj.2
      have e1 : placeEvs msg fd (j :: rest) =
          Event.place j.val (msg.cache_offset j) (msg.len j)
            (mapProt (msg.flags j)) fd (msg.fd_offset j) :: placeEvs msg fd rest := by
        simp [placeEvs, List.filter_cons, h0]
      have e2 : place_front msg fd (j :: rest) mem =
          place_front msg fd rest (placeBytes mem (msg.cache_offset j) (msg.len j) fd
            (msg.fd_offset j) (mapProt (msg.flags j))) := by
        simp [place_front, place_entry, h0]
      simp only [List.cons_append, map_loop, if_neg h0, if_neg hnb, if_pos hpo, e1, e2]
      obtain ⟨r1, r2, r3⟩ := ih hrest l₂ (placeBytes mem (msg.cache_offset j) (msg.len j) fd
        (msg.fd_offset j) (mapProt (msg.flags j)))
      exact ⟨r1, r2, by rw [List.append_eq, r3]⟩

/-- The map loop's result is success, `-EINVAL`, or a negated `mmap`
errno. -/
lemma map_loop_res_range (cache_size : Nat) (msg : VhostUserFSBackendMsg) (fd : Int)
    (place_ok : Fin 8 → Bool) (place_errno : Fin 8 → Nat) :
    ∀ (l : List (Fin 8)) (mem : Mem),
      (map_loop cache_size msg fd place_ok place_errno l mem).res = 0 ∨
      (map_loop cache_size msg fd place_ok place_errno l mem).res = -EINVAL ∨
      ∃ i : Fin 8, (map_loop cache_size msg fd place_ok place_errno l mem).res =
        -(place_errno i : Int) := by
  intro l
  induction l with
  | nil => intro mem; left; rfl
  | cons i rest ih =>
    intro mem
    by_cases h0 : msg.len i = 0
    · simp only [map_loop, if_pos h0]; exact ih mem
    · simp only [map_loop, if_neg h0]
      by_cases hbad : range_bad cache_size (msg.cache_offset i) (msg.len i) = true
      · rw [if_pos hbad]; right; left; rfl
      · rw [if_neg hbad]
        by_cases hpo : place_ok i = true
        · simp only [if_pos hpo]; exact ih _
        · simp only [if_neg hpo]; right; right; exact ⟨i, rfl⟩

/-- The unmap loop's result is its incoming `res`, `-EINVAL`, or a negated
`mmap` errno. -/
lemma unmap_loop_res_range (cache_size : Nat) (msg : VhostUserFSBackendMsg)
    (clear_ok : Fin 8 → Bool) (clear_errno : Fin 8 → Nat) :
    ∀ (l : List (Fin 8)) (res : Int) (mem : Mem),
      (unmap_loop cache_size msg clear_ok clear_errno l res mem).res = res ∨
      (unmap_loop cache_size msg clear_ok clear_errno l res mem).res = -EINVAL ∨
      ∃ i : Fin 8, (unmap_loop cache_size msg clear_ok clear_errno l res mem).res =
        -(clear_errno i : Int) := by
  intro l
  induction l with
  | nil => intro res mem; left; rfl
  | cons i rest ih =>
    intro res mem
    by_cases h0 : msg.len i = 0
    · simp [unmap_loop, h0]
    · simp only [unmap_loop, if_neg h0]
      by_cases hbad : range_bad cache_size (msg.cache_offset i) (resolvedLen cache_size msg i) = true
      · rw [if_pos hbad]
        rcases ih (-EINVAL) mem with h | h | h
        · right; left; exact h
        · right; left; exact h
        · right; right; exact h
      · rw [if_neg hbad]
        by_cases hco : clear_ok i = true
        · simp only [if_pos hco]; exact ih res _
        · simp only [if_neg hco]
          rcases ih (-(clear_errno i : Int)) mem with h | h | h
          · right; right; exact ⟨i, h⟩
          · right; left; exact h
          · right; right; exact h

/-- Core first-failure characterisation of `map_in_cache`: with `i` the
first failing in-use slot, the result is slot `i`'s error and the events
are the places of the in-use slots before `i` plus slot `i`'s own failed
place attempt when it failed at the `mmap` stage. -/
lemma map_first_fail (cache_size : Nat) (msg : VhostUserFSBackendMsg) (fd : Int)
    (place_ok : Fin 8 → Bool) (place_errno : Fin 8 → Nat) (mem : Mem)
    (hfd : ¬fd < 0) (i : Fin 8)
    (hfail : map_entry_fails cache_size msg place_ok i = true)
    (hfirst : ∀ j, j < i → map_entry_fails cache_size msg place_ok j = false) :
    (map_in_cache cache_size msg fd place_ok place_errno mem).res =
      map_entry_err cache_size msg place_errno i
    ∧ (map_in_cache cache_size msg fd place_ok place_errno mem).events =
      placeEvs msg fd ((List.finRange 8).filter (fun j => decide (j < i))) ++
        (if range_bad cache_size (msg.cache_offset i) (msg.len i) then []
         else [Event.place i.val (msg.cache_offset i) (msg.len i)
           (mapProt (msg.flags i)) fd (msg.fd_offset i)]) := by
  have hnz : msg.len i ≠ 0 := by
    simp only [map_entry_fails, Bool.and_eq_true, bne_iff_ne, ne_eq] at hfail
    exact hfail.1
  have hclean : ∀ j ∈ (List.finRange 8).filter (fun j => decide (j < i)),
      map_entry_fails cache_size msg place_ok j = false := by
    intro j hj
    have := (List.mem_filter.mp hj).2
    exact hfirst j (by simpa using this)
  obtain ⟨r1, _, r3⟩ := map_loop_clean_front cache_size msg fd place_ok place_errno
    ((List.finRange 8).filter (fun j => decide (j < i))) hclean
    (i :: (List.finRange 8).filter (fun j => decide (i < j))) mem
  have hsplit := finRange_split i
  constructor
  · rw [map_in_cache, if_neg hfd]
    nth_rewrite 1 [hsplit]
    rw [r1]
    by_cases hbad : range_bad cache_size (msg.cache_offset i) (msg.len i) = true
    · simp only [map_loop, if_neg hnz, if_pos hbad, map_entry_err, hbad, if_true]
    · have hpo : place_ok i = false := by
        simp only [map_entry_fails, Bool.and_eq_true, Bool.or_eq_true] at hfail
        rcases hfail.2 with h | h
        · exact absurd h hbad
        · simpa using h
      simp only [map_loop, if_neg hnz, if_neg hbad, hpo, Bool.false_eq_true, if_false,
        map_entry_err, hbad, if_false]
  · rw [map_in_cache, if_neg hfd]
    nth_rewrite 1 [hsplit]
    rw [r3]
    by_cases hbad : range_bad cache_size (msg.cache_offset i) (msg.len i) = true
    · simp only [map_loop, if_neg hnz, if_pos hbad, hbad, if_true, List.append_nil]
    · have hpo : place_ok i = false := by
        simp only [map_entry_fails, Bool.and_eq_true, Bool.or_eq_true] at hfail
        rcases hfail.2 with h | h
        · exact absurd h hbad
        · simpa using h
      simp only [map_loop, if_neg hnz, if_neg hbad, hpo, Bool.false_eq_true, if_false]

/-- The modelled `is_power_of_2` test agrees with the mathematical
power-of-two property. -/
lemma is_power_of_2_iff (n : Nat) : is_power_of_2 n = true ↔ ∃ k, n = 2 ^ k := by
  rw [is_power_of_2, List.any_eq_true]
  constructor
  · rintro ⟨k, _, hk⟩
    exact ⟨k, by simpa using hk⟩
  · rintro ⟨k, hk⟩
    have hk2 : k < 2 ^ k := Nat.lt_two_pow k
    refine ⟨k, List.mem_range.mpr (by omega), by simpa using hk⟩

/-- `vhost_user_fs_backend_map` unfolded: since `get_cache` always
succeeds, it is `map_in_cache` followed, on any nonzero result, by the
rollback `unmap_in_cache` (whose own result is discarded). -/
lemma backend_map_eq (conf_cache_size : Nat) (msg : VhostUserFSBackendMsg) (fd : Int)
    (place_ok : Fin 8 → Bool) (place_errno : Fin 8 → Nat)
    (clear_ok : Fin 8 → Bool) (clear_errno : Fin 8 → Nat) (mem : Mem) :
    vhost_user_fs_backend_map conf_cache_size msg fd place_ok place_errno
        clear_ok clear_errno mem =
      (if (map_in_cache conf_cache_size msg fd place_ok place_errno mem).res ≠ 0 then
        ⟨(map_in_cache conf_cache_size msg fd place_ok place_errno mem).res,
         (unmap_in_cache conf_cache_size msg clear_ok clear_errno
           (map_in_cache conf_cache_size msg fd place_ok place_errno mem).mem).mem,
         (map_in_cache conf_cache_size msg fd place_ok place_errno mem).events ++
           (unmap_in_cache conf_cache_size msg clear_ok clear_errno
             (map_in_cache conf_cache_size msg fd place_ok place_errno mem).mem).events⟩
      else map_in_cache conf_cache_size msg fd place_ok place_errno mem) := by
  rw [vhost_user_fs_backend_map]
  norm_num [get_cache]

/-- The backend map wrapper's returned `res` is always `map_in_cache`'s
result (the rollback's result is discarded). -/
lemma backend_map_res (conf_cache_size : Nat) (msg : VhostUserFSBackendMsg) (fd : Int)
    (place_ok : Fin 8 → Bool) (place_errno : Fin 8 → Nat)
    (clear_ok : Fin 8 → Bool) (clear_errno : Fin 8 → Nat) (mem : Mem) :
    (vhost_user_fs_backend_map conf_cache_size msg fd place_ok place_errno
        clear_ok clear_errno mem).res =
      (map_in_cache conf_cache_size msg fd place_ok place_errno mem).res := by
  rw [backend_map_eq]
  split <;> rfl

/-- `vhost_user_fs_backend_unmap` unfolded: since `get_cache` always
succeeds, it is exactly `unmap_in_cache`. -/
lemma backend_unmap_eq (conf_cache_size : Nat) (msg : VhostUserFSBackendMsg)
    (clear_ok : Fin 8 → Bool) (clear_errno : Fin 8 → Nat) (mem : Mem) :
    vhost_user_fs_backend_unmap conf_cache_size msg clear_ok clear_errno mem =
      unmap_in_cache conf_cache_size msg clear_ok clear_errno mem := by
  rw [vhost_user_fs_backend_unmap]
  norm_num [get_cache]

end Lemmas

section Claims

/-- Claim C3 (confirmed): for a `uint64_t` entry of nonzero (resolved)
length, the shared bounds check rejects exactly when `window_offset + length`
overflows 64-bit arithmetic or the true sum strictly exceeds the window
size; an entry whose end equals the size exactly is accepted; and a
rejected entry causes no remap call for that entry, in either the map path
or the unmap path. -/
theorem C3_validation (cache_size o l : Nat) (ho : o < U64_MOD) (hl : l < U64_MOD)
    (hs : cache_size < U64_MOD) (hnz : l ≠ 0) :
    (range_bad cache_size o l = true ↔ (U64_MOD ≤ o + l ∨ cache_size < o + l))
    ∧ (o + l = cache_size → range_bad cache_size o l = false)
    ∧ (∀ (msg : VhostUserFSBackendMsg) (fd : Int) (place_ok : Fin 8 → Bool)
        (place_errno : Fin 8 → Nat) (mem : Mem) (i : Fin 8),
        msg.cache_offset i = o → msg.len i = l → range_bad cache_size o l = true →
        ∀ ev ∈ (map_in_cache cache_size msg fd place_ok place_errno mem).events,
          Event.index ev ≠ i.val)
    ∧ (∀ (msg : VhostUserFSBackendMsg) (clear_ok : Fin 8 → Bool)
        (clear_errno : Fin 8 → Nat) (mem : Mem) (i : Fin 8),
        msg.cache_offset i = o → resolvedLen cache_size msg i = l →
        range_bad cache_size o l = true →
        ∀ ev ∈ (unmap_in_cache cache_size msg clear_ok clear_errno mem).events,
          Event.index ev ≠ i.val) := by
  refine ⟨range_bad_iff cache_size o l ho, ?_, ?_, ?_⟩
  · intro hend
    have h1 : ¬(U64_MOD ≤ o + l ∨ cache_size < o + l) := by omega
    rw [← Bool.not_eq_true, range_bad_iff cache_size o l ho]
    exact h1
  · intro msg fd place_ok place_errno mem i hoff hlen hbadv ev hev hidx
    by_cases hfd : fd < 0
    · simp [map_in_cache, hfd] at hev
    · simp only [map_in_cache, if_neg hfd] at hev
      obtain ⟨j, _, hevj, _, hjok⟩ :=
        map_loop_events_sound cache_size msg fd place_ok place_errno _ mem ev hev
      have hji : j = i := by
        apply Fin.eq_of_val_eq
        rw [← hidx, hevj]
        rfl
      rw [hji, hoff, hlen] at hjok
      rw [hjok] at hbadv
      exact absurd hbadv (by simp)
  · intro msg clear_ok clear_errno mem i hoff hlen hbadv ev hev hidx
    obtain ⟨j, _, hevj, hjok⟩ :=
      unmap_loop_events_sound cache_size msg clear_ok clear_errno _ 0 mem ev hev
    have hji : j = i := by
      apply Fin.eq_of_val_eq
      rw [← hidx, hevj]
      rfl
    rw [hji, hoff, hlen] at hjok
    rw [hjok] at hbadv
    exact absurd hbadv (by simp)

/-- Witness for C3 at a concrete input: window size 4096, entry offset 0,
length 4097 is rejected with no remap call for it. -/
theorem C3_validation_witness :
    (range_bad 4096 0 4097 = true ↔ (U64_MOD ≤ 0 + 4097 ∨ 4096 < 0 + 4097))
    ∧ (0 + 4097 = 4096 → range_bad 4096 0 4097 = false)
    ∧ (∀ (msg : VhostUserFSBackendMsg) (fd : Int) (place_ok : Fin 8 → Bool)
        (place_errno : Fin 8 → Nat) (mem : Mem) (i : Fin 8),
        msg.cache_offset i = 0 → msg.len i = 4097 → range_bad 4096 0 4097 = true →
        ∀ ev ∈ (map_in_cache 4096 msg fd place_ok place_errno mem).events,
          Event.index ev ≠ i.val)
    ∧ (∀ (msg : VhostUserFSBackendMsg) (clear_ok : Fin 8 → Bool)
        (clear_errno : Fin 8 → Nat) (mem : Mem) (i : Fin 8),
        msg.cache_offset i = 0 → resolvedLen 4096 msg i = 4097 →
        range_bad 4096 0 4097 = true →
        ∀ ev ∈ (unmap_in_cache 4096 msg clear_ok clear_errno mem).events,
          Event.index ev ≠ i.val) :=
  C3_validation 4096 0 4097 (by norm_num [U64_MOD]) (by norm_num [U64_MOD])
    (by norm_num [U64_MOD]) (by norm_num)

/-- Counterexample to claim C6 as stated: with a negative fd,
`vhost_user_fs_backend_map` does return `-EBADF`, but because the wrapper
runs the rollback unmap for every nonzero result, a remap (`clear`) call
is still issued for the batch's valid slot and the window is changed. -/
theorem C6_counterexample :
    (vhost_user_fs_backend_map 4096 msgC6 (-1) (fun _ => true) (fun _ => 1)
      (fun _ => true) (fun _ => 1) memC6).res = -EBADF
    ∧ (vhost_user_fs_backend_map 4096 msgC6 (-1) (fun _ => true) (fun _ => 1)
        (fun _ => true) (fun _ => 1) memC6).events = [Event.clear 0 0 4096]
    ∧ (vhost_user_fs_backend_map 4096 msgC6 (-1) (fun _ => true) (fun _ => 1)
        (fun _ => true) (fun _ => 1) memC6).mem 0 ≠ memC6 0 := by
  refine ⟨rfl, rfl, ?_⟩
  decide

/-- Claim C6 (corrected): with an invalid (negative) backend fd,
`map_in_cache` itself fails immediately with `-EBADF` before examining any
entry — no remap call, memory unchanged; `vhost_user_fs_backend_map`
returns that `-EBADF`, but treats it like any map failure and runs the
rollback unmap over the batch, so its final memory and issued calls are
those of `unmap_in_cache` on the untouched window rather than "no remap,
window unchanged". -/
theorem C6_bad_fd (cache_size : Nat) (msg : VhostUserFSBackendMsg) (fd : Int)
    (place_ok : Fin 8 → Bool) (place_errno : Fin 8 → Nat)
    (clear_ok : Fin 8 → Bool) (clear_errno : Fin 8 → Nat) (mem : Mem)
    (hfd : fd < 0) :
    map_in_cache cache_size msg fd place_ok place_errno mem = ⟨-EBADF, mem, []⟩
    ∧ (vhost_user_fs_backend_map cache_size msg fd place_ok place_errno
        clear_ok clear_errno mem).res = -EBADF
    ∧ (vhost_user_fs_backend_map cache_size msg fd place_ok place_errno
        clear_ok clear_errno mem).mem =
      (unmap_in_cache cache_size msg clear_ok clear_errno mem).mem
    ∧ (vhost_user_fs_backend_map cache_size msg fd place_ok place_errno
        clear_ok clear_errno mem).events =
      (unmap_in_cache cache_size msg clear_ok clear_errno mem).events := by
  have hmap : map_in_cache cache_size msg fd place_ok place_errno mem = ⟨-EBADF, mem, []⟩ := by
    simp [map_in_cache, hfd]
  refine ⟨hmap, ?_, ?_, ?_⟩ <;>
    simp [vhost_user_fs_backend_map, get_cache, hmap, EBADF]

/-- Witness for C6 at a concrete input. -/
theorem C6_bad_fd_witness :
    map_in_cache 4096 msgZero (-1) (fun _ => true) (fun _ => 1) memNoAccess =
      ⟨-EBADF, memNoAccess, []⟩
    ∧ (vhost_user_fs_backend_map 4096 msgZero (-1) (fun _ => true) (fun _ => 1)
        (fun _ => true) (fun _ => 1) memNoAccess).res = -EBADF
    ∧ (vhost_user_fs_backend_map 4096 msgZero (-1) (fun _ => true) (fun _ => 1)
        (fun _ => true) (fun _ => 1) memNoAccess).mem =
      (unmap_in_cache 4096 msgZero (fun _ => true) (fun _ => 1) memNoAccess).mem
    ∧ (vhost_user_fs_backend_map 4096 msgZero (-1) (fun _ => true) (fun _ => 1)
        (fun _ => true) (fun _ => 1) memNoAccess).events =
      (unmap_in_cache 4096 msgZero (fun _ => true) (fun _ => 1) memNoAccess).events :=
  C6_bad_fd 4096 msgZero (-1) (fun _ => true) (fun _ => 1)
    (fun _ => true) (fun _ => 1) memNoAccess (by decide)


/-- Claim C8 (confirmed): the map processor handles in-use slots in slot
order (zero-length slots skipped) and stops at the first failing slot `i`:
the returned error is slot `i`'s error (`-EINVAL` on a failed bounds
check, else the `mmap` errno), the issued remap calls are exactly one
`place` per in-use slot before `i` in slot order, plus slot `i`'s own
failed `place` attempt when it failed at the `mmap` rather than the bounds
check; no later slot is touched. -/
theorem C8_first_error (cache_size : Nat) (msg : VhostUserFSBackendMsg) (fd : Int)
    (place_ok : Fin 8 → Bool) (place_errno : Fin 8 → Nat) (mem : Mem)
    (hfd : ¬fd < 0) (i : Fin 8)
    (hfail : map_entry_fails cache_size msg place_ok i = true)
    (hfirst : ∀ j, j < i → map_entry_fails cache_size msg place_ok j = false) :
    (map_in_cache cache_size msg fd place_ok place_errno mem).res =
      map_entry_err cache_size msg place_errno i
    ∧ (map_in_cache cache_size msg fd place_ok place_errno mem).events =
      placeEvs msg fd ((List.finRange 8).filter (fun j => decide (j < i))) ++
        (if range_bad cache_size (msg.cache_offset i) (msg.len i) then []
         else [Event.place i.val (msg.cache_offset i) (msg.len i)
           (mapProt (msg.flags i)) fd (msg.fd_offset i)]) :=
  map_first_fail cache_size msg fd place_ok place_errno mem hfd i hfail hfirst

/-- Witness for C8 at a concrete input: window size 4096; slot 0 is
placed, slot 1 fails the bounds check, and the result is `-EINVAL` with
exactly slot 0's place call issued. -/
theorem C8_first_error_witness :
    (map_in_cache 4096 msgC8 3 (fun _ => true) (fun _ => 1) memNoAccess).res =
      map_entry_err 4096 msgC8 (fun _ => 1) 1
    ∧ (map_in_cache 4096 msgC8 3 (fun _ => true) (fun _ => 1) memNoAccess).events =
      placeEvs msgC8 3 ((List.finRange 8).filter (fun j => decide (j < (1 : Fin 8)))) ++
        (if range_bad 4096 (msgC8.cache_offset 1) (msgC8.len 1) then []
         else [Event.place (1 : Fin 8).val (msgC8.cache_offset 1) (msgC8.len 1)
           (mapProt (msgC8.flags 1)) 3 (msgC8.fd_offset 1)]) :=
  C8_first_error 4096 msgC8 3 (fun _ => true) (fun _ => 1) memNoAccess
    (by decide) 1 (by decide) (by decide)

/-- The unmap result, phrased via the last failing attempted slot.  Here
"attempted" means reached by the loop: every slot up to and including it
has nonzero length. -/
lemma unmap_res_char (cache_size : Nat) (msg : VhostUserFSBackendMsg)
    (clear_ok : Fin 8 → Bool) (clear_errno : Fin 8 → Nat) (mem : Mem) :
    (unmap_in_cache cache_size msg clear_ok clear_errno mem).res =
      ((((List.finRange 8).filter
          (fun j => unmap_entry_fails cache_size msg clear_ok j &&
            decide (∀ k, k ≤ j → (msg.len k != 0) = true))).getLast?).map
        (unmap_entry_err cache_size msg clear_errno)).getD 0 := by
  rw [unmap_in_cache, unmap_loop_res_foldl, foldl_last_fail,
    takeWhile_finRange_eq_filter, List.filter_filter]

/-- Claim C7 (confirmed): the unmap processor returns 0 exactly when no
attempted slot failed, and otherwise the error of the most recently
observed (maximal attempted) failure, earlier failures' codes superseded.
A slot is attempted when the loop reaches it, i.e. every slot up to and
including it is in use (nonzero length); the error is only merged into
`res`, so it is returned after all attempted slots have been processed. -/
theorem C7_last_error (cache_size : Nat) (msg : VhostUserFSBackendMsg)
    (clear_ok : Fin 8 → Bool) (clear_errno : Fin 8 → Nat) (mem : Mem)
    (hcerr : ∀ i, 0 < clear_errno i) :
    ((unmap_in_cache cache_size msg clear_ok clear_errno mem).res = 0 ↔
      ∀ i : Fin 8, (∀ j, j ≤ i → msg.len j ≠ 0) →
        unmap_entry_fails cache_size msg clear_ok i = false)
    ∧ (∀ i : Fin 8, (∀ j, j ≤ i → msg.len j ≠ 0) →
        unmap_entry_fails cache_size msg clear_ok i = true →
        (∀ k : Fin 8, (∀ j, j ≤ k → msg.len j ≠ 0) →
          unmap_entry_fails cache_size msg clear_ok k = true → k ≤ i) →
        (unmap_in_cache cache_size msg clear_ok clear_errno mem).res =
          unmap_entry_err cache_size msg clear_errno i) := by
  have hres := unmap_res_char cache_size msg clear_ok clear_errno mem
  set q : Fin 8 → Bool := fun j => unmap_entry_fails cache_size msg clear_ok j &&
    decide (∀ k, k ≤ j → (msg.len k != 0) = true) with hq
  have hqiff : ∀ j : Fin 8, q j = true ↔
      ((∀ k, k ≤ j → msg.len k ≠ 0) ∧ unmap_entry_fails cache_size msg clear_ok j = true) := by
    intro j
    simp [hq, and_comm]
  have herr_ne : ∀ i : Fin 8, unmap_entry_err cache_size msg clear_errno i ≠ 0 := by
    intro i
    rw [unmap_entry_err]
    split
    · norm_num [EINVAL]
    · have := hcerr i
      omega
  constructor
  · constructor
    · intro h0 i hatt
      by_contra hf
      have hf' : unmap_entry_fails cache_size msg clear_ok i = true := by
        simpa using hf
      obtain ⟨m, hm, hmax⟩ := exists_max_slot q ⟨i, (hqiff i).mpr ⟨hatt, hf'⟩⟩
      have hlast := filter_finRange_getLast q m hm hmax
      rw [hlast] at hres
      rw [hres] at h0
      exact herr_ne m (by simpa using h0)
    · intro hall
      have hnone : (List.finRange 8).filter q = [] := by
        rw [filter_finRange_eq_nil]
        intro j
        by_contra hj
        have hj' : q j = true := by simpa using hj
        obtain ⟨hatt, hf⟩ := (hqiff j).mp hj'
        rw [hall j hatt] at hf
        exact Bool.false_ne_true hf
      rw [hres, hnone]
      rfl
  · intro i hatt hf hmax
    have hlast := filter_finRange_getLast q i ((hqiff i).mpr ⟨hatt, hf⟩)
      (fun j hqj => hmax j ((hqiff j).mp hqj).1 ((hqiff j).mp hqj).2)
    rw [hres, hlast]
    rfl

/-- Witness for C7 at a concrete input: the last (and only) failing
attempted slot is slot 1, so its error `-EINVAL` is returned. -/
theorem C7_last_error_witness :
    (unmap_in_cache 4096 msgC7 (fun _ => true) (fun _ => 5) memNoAccess).res =
      unmap_entry_err 4096 msgC7 (fun _ => 5) 1 :=
  (C7_last_error 4096 msgC7 (fun _ => true) (fun _ => 5) memNoAccess
    (fun _ => by norm_num)).2 1 (by decide) (by decide) (by decide)

/-- Counterexample to claim C2 as stated: slot 1 has nonzero length and a
valid range, yet after a zero-length slot 0 the unmap loop (whose loop
condition is `i < N && msg->len[i]`) stops: no clear call is issued for
slot 1 and the batch returns 0. -/
theorem C2_counterexample :
    msgC2.len 1 ≠ 0
    ∧ range_bad 4096 (msgC2.cache_offset 1) (resolvedLen 4096 msgC2 1) = false
    ∧ (unmap_in_cache 4096 msgC2 (fun _ => true) (fun _ => 5) memNoAccess).events = []
    ∧ (unmap_in_cache 4096 msgC2 (fun _ => true) (fun _ => 5) memNoAccess).res = 0 := by
  refine ⟨by decide, by decide, rfl, rfl⟩

/-- Claim C2 (corrected): the unmap processor attempts, in slot order,
exactly the entries strictly before the first zero-length slot — a
zero-length slot terminates the batch rather than being skipped.  Within
that front segment, best effort holds: every attempted entry whose
(sentinel-resolved) range passes the bounds check receives its clear call
regardless of validation or clear failures of other entries, and no entry
at or after the first zero-length slot is touched. -/
theorem C2_best_effort (cache_size : Nat) (msg : VhostUserFSBackendMsg)
    (clear_ok : Fin 8 → Bool) (clear_errno : Fin 8 → Nat) (mem : Mem) :
    (∀ i : Fin 8, (∀ j, j ≤ i → msg.len j ≠ 0) →
        range_bad cache_size (msg.cache_offset i) (resolvedLen cache_size msg i) = false →
        Event.clear i.val (msg.cache_offset i) (resolvedLen cache_size msg i) ∈
          (unmap_in_cache cache_size msg clear_ok clear_errno mem).events)
    ∧ (∀ i : Fin 8, (∃ j, j ≤ i ∧ msg.len j = 0) →
        ∀ ev ∈ (unmap_in_cache cache_size msg clear_ok clear_errno mem).events,
          Event.index ev ≠ i.val) := by
  constructor
  · intro i hatt hok
    have hmem : i ∈ (List.finRange 8).takeWhile (fun j => msg.len j != 0) := by
      rw [mem_takeWhile_finRange]
      intro j hj
      simpa using hatt j hj
    exact unmap_loop_clear_event cache_size msg clear_ok clear_errno _ 0 mem i hmem hok
  · intro i hzero ev hev hidx
    obtain ⟨j, hj, hevj, _⟩ :=
      unmap_loop_events_sound cache_size msg clear_ok clear_errno _ 0 mem ev hev
    have hji : j = i := by
      apply Fin.eq_of_val_eq
      rw [← hidx, hevj]
      rfl
    rw [mem_takeWhile_finRange] at hj
    obtain ⟨k, hk, hk0⟩ := hzero
    have := hj k (by rw [← hji] at hk; exact hk)
    simp [hk0] at this

/-- Witness for C2 at a concrete input: slot 1 still gets its clear call
although slot 0, before it, failed validation. -/
theorem C2_best_effort_witness :
    Event.clear (1 : Fin 8).val (msgC2w.cache_offset 1) (resolvedLen 4096 msgC2w 1) ∈
      (unmap_in_cache 4096 msgC2w (fun _ => true) (fun _ => 5) memNoAccess).events :=
  (C2_best_effort 4096 msgC2w (fun _ => true) (fun _ => 5) memNoAccess).1
    1 (by decide) (by decide)

/-- Counterexample to claim C4 as stated: against a window of size 8192, a
sentinel (all-ones length) unmap at window offset 4096 — an offset in
`[0, size)` — does not clear `[4096, 8192)`: the length resolves to the
full window size, the bounds check `4096 + 8192 > 8192` fails the entry,
and the batch returns `-EINVAL` with no clear call at all. -/
theorem C4_counterexample :
    msgC4.len 0 = U64_MAX
    ∧ msgC4.cache_offset 0 < 8192
    ∧ (unmap_in_cache 8192 msgC4 (fun _ => true) (fun _ => 5) memNoAccess).res = -EINVAL
    ∧ (unmap_in_cache 8192 msgC4 (fun _ => true) (fun _ => 5) memNoAccess).events = [] := by
  refine ⟨by decide, by decide, rfl, rfl⟩

/-- Claim C4 (corrected): an attempted unmap entry with the all-ones
sentinel length has its length resolved to the window size before
validation.  Because the resolved length is the full size rather than
`size - window_offset`, the entry passes validation only at window offset
0, where it clears exactly `[0, size)`; at any nonzero offset it is
rejected by the bounds check and no remap call is issued for it. -/
theorem C4_sentinel (cache_size : Nat) (msg : VhostUserFSBackendMsg)
    (clear_ok : Fin 8 → Bool) (clear_errno : Fin 8 → Nat) (mem : Mem) (i : Fin 8)
    (hcs : cache_size < U64_MOD) (hoff : msg.cache_offset i < U64_MOD)
    (hatt : ∀ j, j ≤ i → msg.len j ≠ 0) (hsent : msg.len i = U64_MAX) :
    (msg.cache_offset i = 0 →
        Event.clear i.val 0 cache_size ∈
          (unmap_in_cache cache_size msg clear_ok clear_errno mem).events
        ∧ (clear_ok i = true → ∀ a, a < cache_size →
            (unmap_in_cache cache_size msg clear_ok clear_errno mem).mem a = noAccess))
    ∧ (msg.cache_offset i ≠ 0 →
        ∀ ev ∈ (unmap_in_cache cache_size msg clear_ok clear_errno mem).events,
          Event.index ev ≠ i.val) := by
  have hres : resolvedLen cache_size msg i = cache_size := by
    rw [resolvedLen, if_pos hsent]
  have hmem : i ∈ (List.finRange 8).takeWhile (fun j => msg.len j != 0) := by
    rw [mem_takeWhile_finRange]
    intro j hj
    simpa using hatt j hj
  constructor
  · intro h0
    have hok : range_bad cache_size (msg.cache_offset i) (resolvedLen cache_size msg i) = false := by
      rw [hres, h0, ← Bool.not_eq_true,
        range_bad_iff cache_size 0 cache_size (by norm_num [U64_MOD])]
      omega
    constructor
    · have := unmap_loop_clear_event cache_size msg clear_ok clear_errno
        (List.finRange 8) 0 mem i hmem hok
      rw [hres, h0] at this
      exact this
    · intro hco a ha
      exact unmap_loop_clear_mem cache_size msg clear_ok clear_errno
        (List.finRange 8) 0 mem i hmem hok hco a (by omega)
        (by rw [hres, h0]; omega)
  · intro hne ev hev hidx
    have hbad : range_bad cache_size (msg.cache_offset i) (resolvedLen cache_size msg i) = true := by
      rw [hres, range_bad_iff cache_size (msg.cache_offset i) cache_size hoff]
      right
      omega
    obtain ⟨j, _, hevj, hjok⟩ :=
      unmap_loop_events_sound cache_size msg clear_ok clear_errno _ 0 mem ev hev
    have hji : j = i := by
      apply Fin.eq_of_val_eq
      rw [← hidx, hevj]
      rfl
    rw [hji] at hjok
    rw [hjok] at hbad
    exact Bool.false_ne_true hbad

/-- Witness for C4 at a concrete input: a sentinel unmap at offset 0
against a size-8192 window issues the clear of `[0, 8192)` and byte 5000
ends no-access. -/
theorem C4_sentinel_witness :
    Event.clear (0 : Fin 8).val 0 8192 ∈
      (unmap_in_cache 8192 msgC4w (fun _ => true) (fun _ => 5) memC6).events
    ∧ (unmap_in_cache 8192 msgC4w (fun _ => true) (fun _ => 5) memC6).mem 5000 = noAccess := by
  have h := (C4_sentinel 8192 msgC4w (fun _ => true) (fun _ => 5) memC6 0
    (by norm_num [U64_MOD]) (by decide) (by decide) (by decide)).1 rfl
  exact ⟨h.1, h.2 rfl 5000 (by norm_num)⟩

/-- Counterexample to claim C1 as stated: slot 3 of this batch fails
validation after slots 0 and 2 were successfully mapped; the rollback
unmap stops at the zero-length slot 1, so after `vhost_user_fs_backend_map`
returns its error, slot 2's bytes (e.g. offset 4096) are still mapped —
a partial mapping from the batch remains live. -/
theorem C1_counterexample :
    (vhost_user_fs_backend_map 8192 msgC1 3 (fun _ => true) (fun _ => 5)
      (fun _ => true) (fun _ => 5) memNoAccess).res = -EINVAL
    ∧ msgC1.len 2 ≠ 0
    ∧ (vhost_user_fs_backend_map 8192 msgC1 3 (fun _ => true) (fun _ => 5)
        (fun _ => true) (fun _ => 5) memNoAccess).mem 4096 ≠ noAccess := by
  refine ⟨rfl, by decide, by decide⟩

/-- Claim C1 (corrected): for a packed map batch — no zero-length slot
before an in-use one — starting from an all-no-access window, if
`vhost_user_fs_backend_map` returns an error then, provided the rollback
clear `mmap`s succeed, every byte of the window is back in the no-access
state: no partial mapping from the batch remains live.  (The packing
condition is necessary: the rollback unmap stops at the first zero-length
slot, so mappings made for in-use slots after a zero-length hole
survive.) -/
theorem C1_rollback (conf_cache_size : Nat) (msg : VhostUserFSBackendMsg) (fd : Int)
    (place_ok : Fin 8 → Bool) (place_errno : Fin 8 → Nat)
    (clear_ok : Fin 8 → Bool) (clear_errno : Fin 8 → Nat) (mem : Mem)
    (hb1 : ∀ i, msg.cache_offset i < U64_MOD)
    (hcs : conf_cache_size < U64_MOD)
    (hpacked : ∀ i j : Fin 8, i ≤ j → msg.len i = 0 → msg.len j = 0)
    (hclears : ∀ i, clear_ok i = true)
    (hmem : ∀ a, mem a = noAccess)
    (herr : (vhost_user_fs_backend_map conf_cache_size msg fd place_ok place_errno
      clear_ok clear_errno mem).res ≠ 0) :
    ∀ a, (vhost_user_fs_backend_map conf_cache_size msg fd place_ok place_errno
      clear_ok clear_errno mem).mem a = noAccess := by
  intro a
  rw [backend_map_eq] at herr ⊢
  by_cases hm : (map_in_cache conf_cache_size msg fd place_ok place_errno mem).res = 0
  · rw [if_neg (by simpa using hm)] at herr
    exact absurd hm herr
  · rw [if_pos hm]
    show (unmap_in_cache conf_cache_size msg clear_ok clear_errno
      (map_in_cache conf_cache_size msg fd place_ok place_errno mem).mem).mem a = noAccess
    set mm := (map_in_cache conf_cache_size msg fd place_ok place_errno mem).mem with hmm
    by_cases hch : mm a = mem a
    · rcases unmap_loop_mem_cases conf_cache_size msg clear_ok clear_errno
        (List.finRange 8) 0 mm a with h | h
      · rw [unmap_in_cache, h, hch, hmem a]
      · rw [unmap_in_cache, h]
    · have hfd : ¬fd < 0 := by
        intro hfd
        apply hch
        rw [hmm, map_in_cache, if_pos hfd]
      have hms : mm a ≠ mem a := hch
      rw [hmm, map_in_cache, if_neg hfd] at hms
      obtain ⟨i, _, hnz, hokk, ha1, ha2⟩ :=
        map_loop_mem_sound conf_cache_size msg fd place_ok place_errno
          (List.finRange 8) mem a hms
      obtain ⟨hrl, hru⟩ := map_valid_resolved conf_cache_size (msg.cache_offset i)
        (msg.len i) (hb1 i) hcs hokk
      have hatt : ∀ j, j ≤ i → msg.len j ≠ 0 := by
        intro j hj h0
        exact hnz (hpacked j i hj h0)
      have hmemtw : i ∈ (List.finRange 8).takeWhile (fun j => msg.len j != 0) := by
        rw [mem_takeWhile_finRange]
        intro j hj
        simpa using hatt j hj
      rw [unmap_in_cache]
      exact unmap_loop_clear_mem conf_cache_size msg clear_ok clear_errno
        (List.finRange 8) 0 mm i hmemtw
        (by rw [resolvedLen]; exact hru) (hclears i) a ha1
        (by rw [resolvedLen, hrl]; exact ha2)

/-- Witness for C1 at a concrete input: after the failed packed batch,
byte 0 (mapped by slot 0 before slot 1 failed) is back to no-access. -/
theorem C1_rollback_witness :
    (vhost_user_fs_backend_map 8192 msgC1w 3 (fun _ => true) (fun _ => 5)
      (fun _ => true) (fun _ => 5) memNoAccess).mem 0 = noAccess :=
  C1_rollback 8192 msgC1w 3 (fun _ => true) (fun _ => 5)
    (fun _ => true) (fun _ => 5) memNoAccess
    (by decide) (by decide) (by decide) (by decide) (fun _ => rfl) (by decide) 0

/-- Counterexample to claim C5 as stated: against a zero-size window, an
unmap entry with the all-ones sentinel length at offset 0 is not rejected
by bounds validation with `-EINVAL`: its length resolves to 0, it passes
the bounds check, a zero-length clear `mmap` is attempted for it, and when
that call succeeds the batch returns 0. -/
theorem C5_counterexample :
    msgC5.len 0 ≠ 0
    ∧ (vhost_user_fs_backend_unmap 0 msgC5 (fun _ => true) (fun _ => 5) memNoAccess).res = 0
    ∧ (vhost_user_fs_backend_unmap 0 msgC5 (fun _ => true) (fun _ => 5) memNoAccess).events =
        [Event.clear 0 0 0] := by
  refine ⟨by decide, rfl, rfl⟩

/-- Claim C5 (corrected): `vhost_user_fs_backend_map` and
`vhost_user_fs_backend_unmap` never return `-ENOENT` (given that `mmap`
itself never fails with `ENOENT`): `get_cache`'s "DAX cache not present"
guard tests the address of the out-parameter, never null, so it returns 0
even for a zero-size cache.  Against a zero-size window: a map batch with
a valid fd returns 0 exactly when all slots are zero-length, and otherwise
`-EINVAL` with no file-backed remap call issued; an unmap batch whose
first slot is zero-length returns 0, and one whose first slot is in use
returns `-EINVAL` with no remap call — provided no entry carries the
all-ones sentinel, which at offset 0 instead resolves to a zero-length
clear attempt. -/
theorem C5_no_enoent (conf_cache_size : Nat) (msg : VhostUserFSBackendMsg) (fd : Int)
    (place_ok : Fin 8 → Bool) (place_errno : Fin 8 → Nat)
    (clear_ok : Fin 8 → Bool) (clear_errno : Fin 8 → Nat) (mem : Mem)
    (hperr : ∀ i, place_errno i ≠ 2) (hcerr : ∀ i, clear_errno i ≠ 2) :
    (get_cache conf_cache_size).1 = 0
    ∧ (vhost_user_fs_backend_map conf_cache_size msg fd place_ok place_errno
        clear_ok clear_errno mem).res ≠ -ENOENT
    ∧ (vhost_user_fs_backend_unmap conf_cache_size msg clear_ok clear_errno mem).res ≠ -ENOENT
    ∧ (¬fd < 0 →
        ((vhost_user_fs_backend_map 0 msg fd place_ok place_errno
          clear_ok clear_errno mem).res = 0 ↔ ∀ i : Fin 8, msg.len i = 0))
    ∧ (¬fd < 0 → (∃ i : Fin 8, msg.len i ≠ 0) →
        (vhost_user_fs_backend_map 0 msg fd place_ok place_errno
          clear_ok clear_errno mem).res = -EINVAL
        ∧ ∀ ev ∈ (vhost_user_fs_backend_map 0 msg fd place_ok place_errno
            clear_ok clear_errno mem).events, ev.isPlace = false)
    ∧ (msg.len 0 = 0 →
        (vhost_user_fs_backend_unmap 0 msg clear_ok clear_errno mem).res = 0)
    ∧ (msg.len 0 ≠ 0 → (∀ i : Fin 8, msg.len i ≠ U64_MAX) →
        (vhost_user_fs_backend_unmap 0 msg clear_ok clear_errno mem).res = -EINVAL
        ∧ (vhost_user_fs_backend_unmap 0 msg clear_ok clear_errno mem).events = []) := by
  have hmap_res_ne : ∀ (cs : Nat),
      (vhost_user_fs_backend_map cs msg fd place_ok place_errno
        clear_ok clear_errno mem).res ≠ -ENOENT := by
    intro cs
    rw [backend_map_res, map_in_cache]
    by_cases hfd : fd < 0
    · rw [if_pos hfd]
      norm_num [EBADF, ENOENT]
    · rw [if_neg hfd]
      rcases map_loop_res_range cs msg fd place_ok place_errno (List.finRange 8) mem
        with h | h | ⟨i, h⟩ <;> rw [h]
      · norm_num [ENOENT]
      · norm_num [EINVAL, ENOENT]
      · have := hperr i
        simp only [ENOENT]
        omega
  have hprefix_fail : msg.len 0 ≠ 0 → (∀ i : Fin 8, msg.len i ≠ U64_MAX) →
      (vhost_user_fs_backend_unmap 0 msg clear_ok clear_errno mem).res = -EINVAL
      ∧ (vhost_user_fs_backend_unmap 0 msg clear_ok clear_errno mem).events = [] := by
    intro h0 hsent
    have hbadall : ∀ i : Fin 8, (∀ j, j ≤ i → msg.len j ≠ 0) →
        range_bad 0 (msg.cache_offset i) (resolvedLen 0 msg i) = true := by
      intro i hatt
      have : resolvedLen 0 msg i = msg.len i := by
        rw [resolvedLen, if_neg (hsent i)]
      rw [this]
      exact range_bad_zero_size _ _ (hatt i le_rfl)
    rw [backend_unmap_eq]
    constructor
    · rw [unmap_res_char]
      set q : Fin 8 → Bool := fun j => unmap_entry_fails 0 msg clear_ok j &&
        decide (∀ k, k ≤ j → (msg.len k != 0) = true) with hq
      have hq0 : q 0 = true := by
        have hatt : ∀ k : Fin 8, k ≤ 0 → msg.len k ≠ 0 := by
          intro k hk
          have : k = 0 := le_antisymm hk (Fin.zero_le k)
          rw [this]
          exact h0
        simp only [hq, Bool.and_eq_true, decide_eq_true_eq]
        refine ⟨?_, fun k hk => by simpa using hatt k hk⟩
        rw [unmap_entry_fails, hbadall 0 hatt]
        rfl
      obtain ⟨m, hm, hmax⟩ := exists_max_slot q ⟨0, hq0⟩
      rw [filter_finRange_getLast q m hm hmax]
      have hmatt : ∀ j, j ≤ m → msg.len j ≠ 0 := by
        simp only [hq, Bool.and_eq_true, decide_eq_true_eq] at hm
        intro j hj
        simpa using hm.2 j hj
      have herrm : unmap_entry_err 0 msg clear_errno m = -EINVAL := by
        rw [unmap_entry_err, if_pos (hbadall m hmatt)]
      simp [herrm]
    · rw [List.eq_nil_iff_forall_not_mem]
      intro ev hev
      obtain ⟨j, hj, _, hjok⟩ :=
        unmap_loop_events_sound 0 msg clear_ok clear_errno (List.finRange 8) 0 mem ev hev
      rw [mem_takeWhile_finRange] at hj
      have : range_bad 0 (msg.cache_offset j) (resolvedLen 0 msg j) = true :=
        hbadall j (fun k hk => by simpa using hj k hk)
      rw [hjok] at this
      exact Bool.false_ne_true this
  have hmap_zero : ¬fd < 0 → (∃ i : Fin 8, msg.len i ≠ 0) →
      (vhost_user_fs_backend_map 0 msg fd place_ok place_errno
        clear_ok clear_errno mem).res = -EINVAL
      ∧ ∀ ev ∈ (vhost_user_fs_backend_map 0 msg fd place_ok place_errno
          clear_ok clear_errno mem).events, ev.isPlace = false := by
    intro hfd hex
    obtain ⟨i0, hi0, hmin⟩ := exists_min_slot (fun j => msg.len j != 0)
      (by obtain ⟨i, hi⟩ := hex; exact ⟨i, by simpa using hi⟩)
    have hi0nz : msg.len i0 ≠ 0 := by simpa using hi0
    have hbad0 : range_bad 0 (msg.cache_offset i0) (msg.len i0) = true :=
      range_bad_zero_size _ _ hi0nz
    have hfail : map_entry_fails 0 msg place_ok i0 = true := by
      rw [map_entry_fails, hbad0]
      simp [hi0nz]
    have hfirst : ∀ j, j < i0 → map_entry_fails 0 msg place_ok j = false := by
      intro j hj
      have := hmin j hj
      rw [map_entry_fails]
      simp only [bne_eq_false_iff_eq] at this
      simp [this]
    obtain ⟨hres, _⟩ := map_first_fail 0 msg fd place_ok place_errno mem hfd i0 hfail hfirst
    constructor
    · rw [backend_map_res, hres, map_entry_err, if_pos hbad0]
    · intro ev hev
      rw [backend_map_eq] at hev
      have hresne : (map_in_cache 0 msg fd place_ok place_errno mem).res ≠ 0 := by
        rw [hres, map_entry_err, if_pos hbad0]
        norm_num [EINVAL]
      rw [if_pos hresne] at hev
      simp only [List.mem_append] at hev
      rcases hev with hev | hev
      · rw [map_in_cache, if_neg hfd] at hev
        obtain ⟨j, _, _, hjnz, hjok⟩ :=
          map_loop_events_sound 0 msg fd place_ok place_errno (List.finRange 8) mem ev hev
        rw [range_bad_zero_size _ _ hjnz] at hjok
        exact absurd hjok (by simp)
      · obtain ⟨j, _, hevj, _⟩ :=
          unmap_loop_events_sound 0 msg clear_ok clear_errno (List.finRange 8) 0 _ ev hev
        rw [hevj]
        rfl
  refine ⟨rfl, hmap_res_ne conf_cache_size, ?_, ?_, hmap_zero, ?_, hprefix_fail⟩
  · rw [backend_unmap_eq]
    rcases unmap_loop_res_range conf_cache_size msg clear_ok clear_errno
      (List.finRange 8) 0 mem with h | h | ⟨i, h⟩ <;> rw [unmap_in_cache, h]
    · norm_num [ENOENT]
    · norm_num [EINVAL, ENOENT]
    · have := hcerr i
      simp only [ENOENT]
      omega
  · intro hfd
    constructor
    · intro hres
      by_contra hall
      push_neg at hall
      obtain ⟨i, hi⟩ := hall
      have := (hmap_zero hfd ⟨i, hi⟩).1
      rw [this] at hres
      norm_num [EINVAL] at hres
    · intro hall
      have hclean : ∀ j ∈ (List.finRange 8), map_entry_fails 0 msg place_ok j = false := by
        intro j _
        rw [map_entry_fails]
        simp [hall j]
      obtain ⟨r1, _, _⟩ := map_loop_clean_front 0 msg fd place_ok place_errno
        (List.finRange 8) hclean [] mem
      rw [List.append_nil] at r1
      rw [backend_map_res, map_in_cache, if_neg hfd, r1]
      rfl
  · intro h0
    rw [backend_unmap_eq, unmap_res_char]
    have hnil : (List.finRange 8).filter
        (fun j => unmap_entry_fails 0 msg clear_ok j &&
          decide (∀ k, k ≤ j → (msg.len k != 0) = true)) = [] := by
      rw [filter_finRange_eq_nil]
      intro j
      simp only [Bool.and_eq_false_iff]
      right
      simp only [decide_eq_false_iff_not, not_forall]
      exact ⟨0, Fin.zero_le j, by simp [h0]⟩
    rw [hnil]
    rfl

/-- Witness for C5 at a concrete input: a size-0 window with a one-entry
(non-sentinel) batch — map returns `-EINVAL` with no place call, unmap
returns `-EINVAL` with no calls at all, and neither returns `-ENOENT`. -/
theorem C5_no_enoent_witness :
    (get_cache 0).1 = 0
    ∧ (vhost_user_fs_backend_map 0 msgC6 3 (fun _ => true) (fun _ => 5)
        (fun _ => true) (fun _ => 5) memNoAccess).res ≠ -ENOENT
    ∧ (vhost_user_fs_backend_unmap 0 msgC6 (fun _ => true) (fun _ => 5)
        memNoAccess).res ≠ -ENOENT
    ∧ (¬(3 : Int) < 0 →
        ((vhost_user_fs_backend_map 0 msgC6 3 (fun _ => true) (fun _ => 5)
          (fun _ => true) (fun _ => 5) memNoAccess).res = 0 ↔
          ∀ i : Fin 8, msgC6.len i = 0))
    ∧ (¬(3 : Int) < 0 → (∃ i : Fin 8, msgC6.len i ≠ 0) →
        (vhost_user_fs_backend_map 0 msgC6 3 (fun _ => true) (fun _ => 5)
          (fun _ => true) (fun _ => 5) memNoAccess).res = -EINVAL
        ∧ ∀ ev ∈ (vhost_user_fs_backend_map 0 msgC6 3 (fun _ => true) (fun _ => 5)
            (fun _ => true) (fun _ => 5) memNoAccess).events, ev.isPlace = false)
    ∧ (msgC6.len 0 = 0 →
        (vhost_user_fs_backend_unmap 0 msgC6 (fun _ => true) (fun _ => 5)
          memNoAccess).res = 0)
    ∧ (msgC6.len 0 ≠ 0 → (∀ i : Fin 8, msgC6.len i ≠ U64_MAX) →
        (vhost_user_fs_backend_unmap 0 msgC6 (fun _ => true) (fun _ => 5)
          memNoAccess).res = -EINVAL
        ∧ (vhost_user_fs_backend_unmap 0 msgC6 (fun _ => true) (fun _ => 5)
            memNoAccess).events = []) :=
  C5_no_enoent 0 msgC6 3 (fun _ => true) (fun _ => 5) (fun _ => true) (fun _ => 5)
    memNoAccess (by decide) (by decide)

/-- Claim C9 (confirmed): given a configuration passing the checks that
precede the cache-size check (chardev present, tag present, nonempty and
at most 36 bytes, at least one request queue, queue size a power of two of
at most 1024), device realize fails with the cache-size configuration
error exactly when the cache size is nonzero and is either not a power of
two or smaller than the host page size; and when the size validation and
the blank-cache `mmap` succeed, the cache window reservation is performed
exactly once for a nonzero size and not at all for size zero. -/
theorem C9_cache_size_validation (conf : VHostUserFSConf) (page_size : Nat)
    (target_ppc64_linux : Bool) (mmap_ok vhost_user_init_ok vhost_dev_init_ok : Bool)
    (t : String)
    (hchr : conf.chardev_present = true)
    (htag : conf.tag = some t)
    (ht1 : t.length ≠ 0)
    (ht2 : t.length ≤ virtio_fs_config_tag_size)
    (hnrq : conf.num_request_queues ≠ 0)
    (hqs1 : is_power_of_2 conf.queue_size = true)
    (hqs2 : conf.queue_size ≤ VIRTQUEUE_MAX_SIZE) :
    ((vuf_device_realize conf page_size target_ppc64_linux mmap_ok vhost_user_init_ok
        vhost_dev_init_ok).err = some .bad_cache_size ↔
      (conf.cache_size ≠ 0 ∧
        (¬(∃ k, conf.cache_size = 2 ^ k) ∨ conf.cache_size < page_size)))
    ∧ ((conf.cache_size = 0 ∨
          ((∃ k, conf.cache_size = 2 ^ k) ∧ page_size ≤ conf.cache_size)) →
        mmap_ok = true →
        (vuf_device_realize conf page_size target_ppc64_linux mmap_ok vhost_user_init_ok
          vhost_dev_init_ok).create_events =
          if conf.cache_size ≠ 0 then
            [(conf.cache_size, DAX_WINDOW_PROT target_ppc64_linux)]
          else []) := by
  have hpow2 : is_power_of_2 conf.cache_size = false ↔ ¬∃ k, conf.cache_size = 2 ^ k := by
    rw [← is_power_of_2_iff]
    simp
  have hreal : vuf_device_realize conf page_size target_ppc64_linux mmap_ok
      vhost_user_init_ok vhost_dev_init_ok =
      (if conf.cache_size ≠ 0 ∧
          (is_power_of_2 conf.cache_size = false ∨ conf.cache_size < page_size) then
        ⟨some .bad_cache_size, []⟩
      else if conf.cache_size ≠ 0 ∧ mmap_ok = false then ⟨some .mmap_failed, []⟩
      else
        let created := if conf.cache_size ≠ 0 then
          [(conf.cache_size, DAX_WINDOW_PROT target_ppc64_linux)] else []
        if vhost_user_init_ok = false then ⟨some .vhost_user_init_failed, created⟩
        else if vhost_dev_init_ok = false then ⟨some .vhost_dev_init_failed, created⟩
        else ⟨none, created⟩) := by
    have h2 : ¬t.length > virtio_fs_config_tag_size := by omega
    have h3 : ¬conf.queue_size > VIRTQUEUE_MAX_SIZE := by omega
    rw [vuf_device_realize, htag]
    simp [hchr, ht1, h2, hnrq, hqs1, h3]
  constructor
  · rw [hreal]
    by_cases hc : conf.cache_size ≠ 0 ∧
        (is_power_of_2 conf.cache_size = false ∨ conf.cache_size < page_size)
    · rw [if_pos hc]
      constructor
      · intro _
        refine ⟨hc.1, ?_⟩
        rcases hc.2 with h | h
        · exact Or.inl (hpow2.mp h)
        · exact Or.inr h
      · intro _
        rfl
    · rw [if_neg hc]
      constructor
      · intro h
        exfalso
        by_cases hc2 : conf.cache_size ≠ 0 ∧ mmap_ok = false
        · rw [if_pos hc2] at h
          simp at h
        · rw [if_neg hc2] at h
          simp only at h
          by_cases hvu : vhost_user_init_ok = false
          · rw [if_pos hvu] at h
            simp at h
          · rw [if_neg hvu] at h
            by_cases hvd : vhost_dev_init_ok = false
            · rw [if_pos hvd] at h
              simp at h
            · rw [if_neg hvd] at h
              simp at h
      · intro h
        refine absurd ⟨h.1, ?_⟩ hc
        rcases h.2 with h2 | h2
        · exact Or.inl (hpow2.mpr h2)
        · exact Or.inr h2
  · intro hpass hmm
    have hc : ¬(conf.cache_size ≠ 0 ∧
        (is_power_of_2 conf.cache_size = false ∨ conf.cache_size < page_size)) := by
      rcases hpass with h | ⟨hex, hpage⟩
      · intro hc
        exact hc.1 h
      · intro hc
        rcases hc.2 with h2 | h2
        · exact (hpow2.mp h2) hex
        · omega
    have hc2 : ¬(conf.cache_size ≠ 0 ∧ mmap_ok = false) := by
      intro h
      rw [hmm] at h
      exact absurd h.2 (by simp)
    rw [hreal, if_neg hc, if_neg hc2]
    simp only
    by_cases hvu : vhost_user_init_ok = false
    · rw [if_pos hvu]
    · rw [if_neg hvu]
      by_cases hvd : vhost_dev_init_ok = false
      · rw [if_pos hvd]
      · rw [if_neg hvd]

/-- Witness for C9 at a concrete configuration: chardev present, tag
"myfs", one request queue of size 128, cache size 4096 with page size
4096 — the size validation passes and the window is created once. -/
theorem C9_cache_size_validation_witness :
    ((vuf_device_realize ⟨true, some "myfs", 1, 128, 4096⟩ 4096 false true true
        true).err = some .bad_cache_size ↔
      ((4096 : Nat) ≠ 0 ∧ (¬(∃ k, (4096 : Nat) = 2 ^ k) ∨ (4096 : Nat) < 4096)))
    ∧ (((4096 : Nat) = 0 ∨
          ((∃ k, (4096 : Nat) = 2 ^ k) ∧ (4096 : Nat) ≤ 4096)) →
        true = true →
        (vuf_device_realize ⟨true, some "myfs", 1, 128, 4096⟩ 4096 false true true
          true).create_events =
          if (4096 : Nat) ≠ 0 then [((4096 : Nat), DAX_WINDOW_PROT false)] else []) :=
  C9_cache_size_validation ⟨true, some "myfs", 1, 128, 4096⟩ 4096 false true true true
    "myfs" rfl rfl (by decide) (by decide) (by decide)
    (by decide) (by decide)

/-- Counterexample to claim C10 as stated: 4096 is a power of two no
smaller than a 4096-byte page, yet on a `TARGET_PPC64 && CONFIG_LINUX`
build — part of the cited `DAX_WINDOW_PROT` definition — the freshly
created window's bytes are anonymous `PROT_READ` pages, not no-access. -/
theorem C10_counterexample :
    (4096 : Nat) = 2 ^ 12
    ∧ DAX_WINDOW_PROT true ≠ PROT_NONE
    ∧ (vuf_create_cache 4096 true).mem 0 ≠ noAccess := by
  refine ⟨by norm_num, by decide, by decide⟩

/-- Claim C10 (corrected): `create` reserves exactly `size` bytes of
private anonymous address space with protection `DAX_WINDOW_PROT`, so
immediately after creation every offset in `[0, size)` is an anonymous
page with that protection; that state is the no-access state exactly on
builds without `TARGET_PPC64 && CONFIG_LINUX` (on such builds the window
is readable, `PROT_READ`). -/
theorem C10_create (size : Nat) (target_ppc64_linux : Bool) (a : Nat) (ha : a < size) :
    (vuf_create_cache size target_ppc64_linux).size = size
    ∧ (vuf_create_cache size target_ppc64_linux).mem a =
        PageState.anon (DAX_WINDOW_PROT target_ppc64_linux)
    ∧ ((vuf_create_cache size target_ppc64_linux).mem a = noAccess ↔
        target_ppc64_linux = false) := by
  refine ⟨rfl, rfl, ?_⟩
  cases target_ppc64_linux
  · simp [vuf_create_cache, DAX_WINDOW_PROT, noAccess]
  · simp [vuf_create_cache, DAX_WINDOW_PROT, noAccess, PageState.anon.injEq, PROT_READ,
      PROT_NONE]

/-- Witness for C10 at a concrete input: a 4096-byte window on a
non-ppc64 build; offset 0 is no-access. -/
theorem C10_create_witness :
    (vuf_create_cache 4096 false).size = 4096
    ∧ (vuf_create_cache 4096 false).mem 0 = PageState.anon (DAX_WINDOW_PROT false)
    ∧ ((vuf_create_cache 4096 false).mem 0 = noAccess ↔ false = false) :=
  C10_create 4096 false 0 (by norm_num)

end Claims

end VhostUserFS
